import Mathlib

/-!
# Verification of the dodrio change-list interpreter

A shallow embedding of `src/js/change-list-interpreter.js`.  The file models
the DOM as a growing heap of nodes addressed by natural-number ids, embeds the
two interpreter variants found in the source (the main variant with a
temporaries table and a template cache, and the sibling-index variant with a
parallel `siblingIndices` stack), and proves the specification claims about
them.

JS conventions used throughout the embedding:
* a JS node reference that may be `null` or `undefined` is `Option NodeId`
  (the two falsy values are observationally equivalent for every operation the
  interpreter performs: dereferencing either throws a `TypeError`);
* a thrown exception is the `Except.error` branch; because the interpreter
  object keeps its mutated fields when a handler throws, errors carry the
  state at the moment of the throw;
* `Map` objects become association lists with insert-or-replace semantics;
* `TextDecoder` decoding is modelled byte-for-byte via `Char.ofNat`, which
  agrees with UTF-8 on the ASCII strings the protocol uses.
-/

namespace Dodrio

/-- DOM node ids: indices into the heap. -/
abbrev NodeId := Nat

/-- A JS node reference: `none` models both `null` and `undefined`. -/
abbrev JsNode := Option NodeId

/-- The clone-visible data of a DOM node: everything `cloneNode(true)` copies
(tag, node kind, character data, attributes, the reflected `class`).
JS expando properties, live element properties and event listeners are not
copied by `cloneNode` and live outside this structure. -/
structure NodeData where
  tag : String
  isText : Bool
  text : String
  attrs : List (String × String)
  className : String
  deriving DecidableEq, Repr

/-- A DOM node in the heap: clone-visible data plus live element properties
(`.value`, `.checked`, `.selected`), the event-listener registrations of the
shared handler, the `dodrio-a-*`/`dodrio-b-*` expando payload pairs, and the
tree links. -/
structure DomNode where
  data : NodeData
  propValue : Option String
  propChecked : Bool
  propSelected : Bool
  listeners : List String
  payloads : List (String × Nat × Nat)
  children : List NodeId
  parent : Option NodeId
  deriving DecidableEq, Repr

/-- A fresh element node with the given tag. -/
def mkElement (tag : String) : DomNode :=
  { data := { tag := tag, isText := false, text := "", attrs := [], className := "" }
  , propValue := none, propChecked := false, propSelected := false
  , listeners := [], payloads := [], children := [], parent := none }

/-- A fresh text node with the given character data. -/
def mkTextNode (text : String) : DomNode :=
  { data := { tag := "", isText := true, text := text, attrs := [], className := "" }
  , propValue := none, propChecked := false, propSelected := false
  , listeners := [], payloads := [], children := [], parent := none }

/-- The DOM heap: node ids are indices into `nodes`; allocation appends.
Nodes are never deleted (removal only detaches), mirroring garbage-collected
JS objects that stay reachable from the interpreter's structures. -/
structure Dom where
  nodes : List DomNode
  deriving DecidableEq, Repr

namespace Dom

/-- Look a node up in the heap. -/
def getNode (d : Dom) (n : NodeId) : Option DomNode :=
  d.nodes.get? n

/-- Update the node at `n` in place (no-op on a dangling id, which is
unrepresentable in JS where references are direct). -/
def modifyNode (d : Dom) (n : NodeId) (f : DomNode → DomNode) : Dom :=
  match d.nodes.get? n with
  | none => d
  | some x => ⟨d.nodes.set n (f x)⟩

/-- Allocate a node, returning the new heap and the fresh id. -/
def alloc (d : Dom) (x : DomNode) : Dom × NodeId :=
  (⟨d.nodes ++ [x]⟩, d.nodes.length)

/-- `n.childNodes` as a list of ids. -/
def childrenOf (d : Dom) (n : NodeId) : List NodeId :=
  match d.getNode n with
  | none => []
  | some x => x.children

/-- `n.parentNode`. -/
def parentOf (d : Dom) (n : NodeId) : Option NodeId :=
  match d.getNode n with
  | none => none
  | some x => x.parent

/-- `n.nextSibling`: the entry after `n` in the parent's child list. -/
def nextSibling (d : Dom) (n : NodeId) : Option NodeId :=
  match parentOf d n with
  | none => none
  | some p =>
    match (childrenOf d p).dropWhile (fun c => c ≠ n) with
    | _ :: next :: _ => some next
    | _ => none

/-- `n.remove()`: detach `n` from its parent (no-op when parentless). -/
def removeNode (d : Dom) (n : NodeId) : Dom :=
  match parentOf d n with
  | none => d
  | some p =>
    let d1 := d.modifyNode p (fun x => { x with children := x.children.erase n })
    d1.modifyNode n (fun x => { x with parent := none })

/-- `p.appendChild(c)`: the DOM first detaches `c` from its current parent,
then appends it to `p`'s children. -/
def appendChildNode (d : Dom) (p c : NodeId) : Dom :=
  let d1 := removeNode d c
  let d2 := d1.modifyNode p (fun x => { x with children := x.children ++ [c] })
  d2.modifyNode c (fun x => { x with parent := some p })

/-- `p.insertBefore(c, ref)`: detach `c`, then insert it into `p`'s children
immediately before `ref`. -/
def insertBeforeNode (d : Dom) (p c ref : NodeId) : Dom :=
  let d1 := removeNode d c
  let kids := d1.childrenOf p
  let kids2 := (kids.takeWhile (fun x => x ≠ ref)) ++ c :: (kids.dropWhile (fun x => x ≠ ref))
  let d2 := d1.modifyNode p (fun x => { x with children := kids2 })
  d2.modifyNode c (fun x => { x with parent := some p })

/-- `old.replaceWith(newNode)`: a no-op when `old` is parentless, otherwise
detach `newNode` from its current parent and substitute it for `old` in
`old`'s parent. -/
def replaceWithNode (d : Dom) (oldN newN : NodeId) : Dom :=
  match parentOf d oldN with
  | none => d
  | some p =>
    let d1 := removeNode d newN
    let d2 := d1.modifyNode p
      (fun x => { x with children := x.children.map (fun c => if c = oldN then newN else c) })
    let d3 := d2.modifyNode newN (fun x => { x with parent := some p })
    d3.modifyNode oldN (fun x => { x with parent := none })

/-- `n.textContent = str`: drop all children (detaching them) and store the
string as the node's character data. -/
def setTextContent (d : Dom) (n : NodeId) (str : String) : Dom :=
  let kids := d.childrenOf n
  let d1 := d.modifyNode n (fun x => { x with data := { x.data with text := str }, children := [] })
  kids.foldl (fun acc c => acc.modifyNode c (fun x => { x with parent := none })) d1

end Dom

/-- A detached DOM subtree by value: what `cloneNode(true)` copies, and the
observable we use for structural equality of subtrees. -/
inductive DTree where
  | mk (data : NodeData) (children : List DTree)

mutual

/-- Read the subtree rooted at `n` out of the heap as a value, with fuel
bounding the depth (`none` on dangling ids or fuel exhaustion; for any
well-formed finite DOM tree, `d.nodes.length + 1` fuel suffices). -/
def readTree (d : Dom) : Nat → NodeId → Option DTree
  | 0, _ => none
  | fuel + 1, n =>
    match d.getNode n with
    | none => none
    | some x => (readForest d fuel x.children).map (DTree.mk x.data)
termination_by fuel _ => (fuel, 0)

/-- Read a list of subtrees (see `readTree`). -/
def readForest (d : Dom) : Nat → List NodeId → Option (List DTree)
  | _, [] => some []
  | fuel, c :: cs =>
    match readTree d fuel c, readForest d fuel cs with
    | some t, some ts => some (t :: ts)
    | _, _ => none
termination_by fuel cs => (fuel, cs.length + 1)

end

/-- A freshly written node carrying clone-visible data only (clones start
with default properties, no listeners and no payloads). -/
def freshFromData (nd : NodeData) (parent : Option NodeId) : DomNode :=
  { data := nd, propValue := none, propChecked := false, propSelected := false
  , listeners := [], payloads := [], children := [], parent := parent }

mutual

/-- Write a subtree value into the heap as fresh nodes (children's parent
links point at their fresh parent; the root is detached), returning the new
heap and the fresh root id. -/
def writeTree (d : Dom) (parent : Option NodeId) : DTree → Dom × NodeId
  | .mk nd cs =>
    let root := d.nodes.length
    let d1 : Dom := ⟨d.nodes ++ [freshFromData nd parent]⟩
    let (d2, cids) := writeForest d1 (some root) cs
    (d2.modifyNode root (fun x => { x with children := cids }), root)

/-- Write a list of subtree values (see `writeTree`). -/
def writeForest (d : Dom) (parent : Option NodeId) : List DTree → Dom × List NodeId
  | [] => (d, [])
  | t :: ts =>
    let (d1, r) := writeTree d parent t
    let (d2, rs) := writeForest d1 parent ts
    (d2, r :: rs)

end

/-- `n.cloneNode(true)`: read the subtree by value, then write a fresh copy.
Fails only when the subtree cannot be read with heap-size fuel, which is
unrepresentable for an actual (finite, acyclic) DOM tree. -/
def cloneNodeDeep (d : Dom) (n : NodeId) : Option (Dom × NodeId) :=
  (readTree d (d.nodes.length + 1) n).map (writeTree d none)

/-! ## JS `Map` objects as association lists -/

/-- `Map.prototype.set`: insert or replace. -/
def mapSet {κ α : Type} [DecidableEq κ] : List (κ × α) → κ → α → List (κ × α)
  | [], k, v => [(k, v)]
  | (k2, v2) :: rest, k, v =>
    if k2 = k then (k, v) :: rest else (k2, v2) :: mapSet rest k v

/-- `Map.prototype.get`: `none` models the `undefined` returned for a missing
key. -/
def mapGet {κ α : Type} [DecidableEq κ] : List (κ × α) → κ → Option α
  | [], _ => none
  | (k2, v2) :: rest, k => if k2 = k then some v2 else mapGet rest k

/-- `Map.prototype.delete`. -/
def mapDel {κ α : Type} [DecidableEq κ] : List (κ × α) → κ → List (κ × α)
  | [], _ => []
  | (k2, v2) :: rest, k => if k2 = k then rest else (k2, v2) :: mapDel rest k

/-! ## Shared memory and decoding -/

/-- The shared linear memory as the interpreter sees it: the source takes a
`Uint8Array` and a `Uint32Array` view over `memory.buffer`; the claims do not
depend on the aliasing between the two, so the model carries both views. -/
structure Mem where
  mem8 : List Nat
  mem32 : List Nat
  deriving DecidableEq, Repr

/-- `string(mem, pointer, length)`: decode the byte slice.  `subarray` clamps
out-of-range bounds; each byte is mapped to the code point of the same value,
which agrees with the source's UTF-8 `TextDecoder` on ASCII bytes (the only
bytes the protocol's interned strings use). -/
def memString (m : Mem) (pointer length : Nat) : String :=
  String.mk (((m.mem8.drop pointer).take length).map Char.ofNat)

/-- JS coercion of a possibly-`undefined` string into a DOM string argument
(`document.createElement(undefined)` behaves as the string "undefined"). -/
def jsStr (o : Option String) : String :=
  o.getD "undefined"

/-- `l[k]` for a JS signed index: negative or out-of-range indices read as
`undefined`. -/
def jsIndex {α : Type} (l : List α) (k : Int) : Option α :=
  if k < 0 then none else l.get? k.toNat

/-! ## The main interpreter variant (temporaries and templates)

State of a live `ChangeListInterpreter` from the first source variant.  The
per-frame reset writes `ranges.length = 0` etc., which the model renders as
setting the field to `[]`. -/

structure St where
  container : NodeId
  ranges : List Nat
  stack : List JsNode
  strings : List (Nat × String)
  temporaries : List (Nat × JsNode)
  templates : List (Nat × NodeId)
  dom : Dom
  deriving DecidableEq, Repr

/-- Result of one opcode handler: the new state and word index, or a thrown
exception together with the interpreter state at the moment of the throw. -/
abbrev OpRes := Except (String × St) (St × Nat)

/-- `top(stack)`: `stack[stack.length - 1]`, flattening the `undefined` of an
empty stack and a stored `null` entry into `none`. -/
def topRef (s : St) : JsNode :=
  s.stack.getLast?.join

/-- Dereference a JS node reference, throwing the `TypeError` that member
access on `null`/`undefined` raises. -/
def derefNode (v : JsNode) (s : St) : Except (String × St) NodeId :=
  match v with
  | none => .error ("TypeError: node reference is null or undefined", s)
  | some n => .ok n

/-- Fetch `mem32[i++]`.  An out-of-bounds read yields `undefined` in JS and
poisons the operation that consumes it; the model faults at the read (no
claim exercises a stream that runs off the end of memory). -/
def fetch32 (m : Mem) (i : Nat) (s : St) : Except (String × St) (Nat × Nat) :=
  match m.mem32.get? i with
  | none => .error ("memory read out of bounds", s)
  | some w => .ok (w, i + 1)

/-- `interpreter.getCachedString(id)`: `Map.get`, which returns `undefined`
(modelled `none`) for an id that was never cached — it does not throw. -/
def getCachedString (s : St) (id : Nat) : Option String :=
  mapGet s.strings id

/-- The `while (sibling)` loop of opcode 1: capture `sibling.nextSibling`
before removing `sibling`, then continue from the captured reference.  Fuel
(the heap size in the caller) bounds the walk; each iteration removes one
node, so heap-size fuel always suffices on a real DOM tree. -/
def removeChain : Dom → Nat → Option NodeId → Dom
  | d, _, none => d
  | d, 0, some _ => d
  | d, fuel + 1, some sib => removeChain (d.removeNode sib) fuel (d.nextSibling sib)

/-- Opcode 0, `setText`. -/
def opSetText (m : Mem) (s : St) (i : Nat) : OpRes := do
  let (pointer, i) ← fetch32 m i s
  let (length, i) ← fetch32 m i s
  let str := memString m pointer length
  let n ← derefNode (topRef s) s
  .ok ({ s with dom := s.dom.setTextContent n str }, i)

/-- Opcode 1, `removeSelfAndNextSiblings`. -/
def opRemoveSelfAndNextSiblings (_ : Mem) (s : St) (i : Nat) : OpRes := do
  let v := topRef s
  let s := { s with stack := s.stack.dropLast }
  let node ← derefNode v s
  let d := removeChain s.dom s.dom.nodes.length (s.dom.nextSibling node)
  .ok ({ s with dom := d.removeNode node }, i)

/-- Opcode 2, `replaceWith`.  (`replaceWith` would stringify a non-Node
argument into a text node; no claim reaches that path and the model reports
it as an error.) -/
def opReplaceWith (_ : Mem) (s : St) (i : Nat) : OpRes := do
  let vNew := topRef s
  let s := { s with stack := s.stack.dropLast }
  let vOld := topRef s
  let s := { s with stack := s.stack.dropLast }
  let oldNode ← derefNode vOld s
  let newNode ← derefNode vNew s
  let s := { s with dom := s.dom.replaceWithNode oldNode newNode }
  .ok ({ s with stack := s.stack ++ [some newNode] }, i)

/-- Opcode 3, `setAttribute`: set the attribute, and additionally write the
live property for the volatile names `value`, `checked`, `selected`. -/
def opSetAttribute (m : Mem) (s : St) (i : Nat) : OpRes := do
  let (nameId, i) ← fetch32 m i s
  let (valueId, i) ← fetch32 m i s
  let name := jsStr (getCachedString s nameId)
  let value := jsStr (getCachedString s valueId)
  let n ← derefNode (topRef s) s
  match s.dom.getNode n with
  | none => .error ("TypeError: dangling node reference", s)
  | some node =>
    if node.data.isText then
      .error ("TypeError: node.setAttribute is not a function", s)
    else
      let d := s.dom.modifyNode n
        (fun x => { x with data := { x.data with attrs := mapSet x.data.attrs name value } })
      let d := if name = "value" then d.modifyNode n (fun x => { x with propValue := some value }) else d
      let d := if name = "checked" then d.modifyNode n (fun x => { x with propChecked := true }) else d
      let d := if name = "selected" then d.modifyNode n (fun x => { x with propSelected := true }) else d
      .ok ({ s with dom := d }, i)

/-- Opcode 4, `removeAttribute`: remove the attribute, and additionally reset
the live property for the volatile names (`null` for `value`, `false` for
`checked` and `selected`). -/
def opRemoveAttribute (m : Mem) (s : St) (i : Nat) : OpRes := do
  let (nameId, i) ← fetch32 m i s
  let name := jsStr (getCachedString s nameId)
  let n ← derefNode (topRef s) s
  match s.dom.getNode n with
  | none => .error ("TypeError: dangling node reference", s)
  | some node =>
    if node.data.isText then
      .error ("TypeError: node.removeAttribute is not a function", s)
    else
      let d := s.dom.modifyNode n
        (fun x => { x with data := { x.data with attrs := mapDel x.data.attrs name } })
      let d := if name = "value" then d.modifyNode n (fun x => { x with propValue := none }) else d
      let d := if name = "checked" then d.modifyNode n (fun x => { x with propChecked := false }) else d
      let d := if name = "selected" then d.modifyNode n (fun x => { x with propSelected := false }) else d
      .ok ({ s with dom := d }, i)

/-- Opcode 5, `pushReverseChild`: push `children[children.length - n - 1]`
(an out-of-range index pushes `undefined`). -/
def opPushReverseChild (m : Mem) (s : St) (i : Nat) : OpRes := do
  let (n, i) ← fetch32 m i s
  let parent ← derefNode (topRef s) s
  let children := s.dom.childrenOf parent
  let child := jsIndex children ((children.length : Int) - n - 1)
  .ok ({ s with stack := s.stack ++ [child] }, i)

/-- Opcode 6, `popPushChild`. -/
def opPopPushChild (m : Mem) (s : St) (i : Nat) : OpRes := do
  let (n, i) ← fetch32 m i s
  let s := { s with stack := s.stack.dropLast }
  let parent ← derefNode (topRef s) s
  let child := (s.dom.childrenOf parent).get? n
  .ok ({ s with stack := s.stack ++ [child] }, i)

/-- Opcode 7, `pop`. -/
def opPop (_ : Mem) (s : St) (i : Nat) : OpRes :=
  .ok ({ s with stack := s.stack.dropLast }, i)

/-- Opcode 8, `appendChild` (appending into a text node raises a
`HierarchyRequestError`). -/
def opAppendChild (_ : Mem) (s : St) (i : Nat) : OpRes := do
  let vChild := topRef s
  let s := { s with stack := s.stack.dropLast }
  let child ← derefNode vChild s
  let parent ← derefNode (topRef s) s
  match s.dom.getNode parent with
  | none => .error ("TypeError: dangling node reference", s)
  | some pnode =>
    if pnode.data.isText then
      .error ("HierarchyRequestError: nodes of this type may not have children", s)
    else
      .ok ({ s with dom := s.dom.appendChildNode parent child }, i)

/-- Opcode 9, `createTextNode`. -/
def opCreateTextNode (m : Mem) (s : St) (i : Nat) : OpRes := do
  let (pointer, i) ← fetch32 m i s
  let (length, i) ← fetch32 m i s
  let text := memString m pointer length
  let (d, n) := s.dom.alloc (mkTextNode text)
  .ok ({ s with dom := d, stack := s.stack ++ [some n] }, i)

/-- Opcode 10, `createElement`. -/
def opCreateElement (m : Mem) (s : St) (i : Nat) : OpRes := do
  let (tagNameId, i) ← fetch32 m i s
  let tagName := jsStr (getCachedString s tagNameId)
  let (d, n) := s.dom.alloc (mkElement tagName)
  .ok ({ s with dom := d, stack := s.stack ++ [some n] }, i)

/-- Opcode 11, `newEventListener`: register the shared handler for the event
type (`addEventListener` deduplicates an identical (type, handler) pair) and
store the payload pair as the `dodrio-a-*`/`dodrio-b-*` expando properties. -/
def opNewEventListener (m : Mem) (s : St) (i : Nat) : OpRes := do
  let (eventId, i) ← fetch32 m i s
  let eventType := jsStr (getCachedString s eventId)
  let (a, i) ← fetch32 m i s
  let (b, i) ← fetch32 m i s
  let el ← derefNode (topRef s) s
  let d := s.dom.modifyNode el (fun x =>
    { x with listeners := if eventType ∈ x.listeners then x.listeners else x.listeners ++ [eventType] })
  let d := d.modifyNode el (fun x => { x with payloads := mapSet x.payloads eventType (a, b) })
  .ok ({ s with dom := d }, i)

/-- Opcode 12, `updateEventListener`: overwrite the stored payload pair; the
handler registration is not touched. -/
def opUpdateEventListener (m : Mem) (s : St) (i : Nat) : OpRes := do
  let (eventId, i) ← fetch32 m i s
  let eventType := jsStr (getCachedString s eventId)
  let el ← derefNode (topRef s) s
  let (a, i) ← fetch32 m i s
  let (b, i) ← fetch32 m i s
  let d := s.dom.modifyNode el (fun x => { x with payloads := mapSet x.payloads eventType (a, b) })
  .ok ({ s with dom := d }, i)

/-- Opcode 13, `removeEventListener`: drop the shared handler's registration
for the event type (the expando payload properties are left behind). -/
def opRemoveEventListener (m : Mem) (s : St) (i : Nat) : OpRes := do
  let (eventId, i) ← fetch32 m i s
  let eventType := jsStr (getCachedString s eventId)
  let el ← derefNode (topRef s) s
  let d := s.dom.modifyNode el (fun x => { x with listeners := x.listeners.erase eventType })
  .ok ({ s with dom := d }, i)

/-- Opcode 14, `addCachedString`. -/
def opAddCachedString (m : Mem) (s : St) (i : Nat) : OpRes := do
  let (pointer, i) ← fetch32 m i s
  let (length, i) ← fetch32 m i s
  let (id, i) ← fetch32 m i s
  let str := memString m pointer length
  .ok ({ s with strings := mapSet s.strings id str }, i)

/-- Opcode 15, `dropCachedString`. -/
def opDropCachedString (m : Mem) (s : St) (i : Nat) : OpRes := do
  let (id, i) ← fetch32 m i s
  .ok ({ s with strings := mapDel s.strings id }, i)

/-- Opcode 16, `createElementNS`.  The model's nodes do not record the
namespace URI; the namespace operand is decoded (a pure cache lookup) and is
otherwise unobservable to the claims. -/
def opCreateElementNS (m : Mem) (s : St) (i : Nat) : OpRes := do
  let (tagNameId, i) ← fetch32 m i s
  let tagName := jsStr (getCachedString s tagNameId)
  let (nsId, i) ← fetch32 m i s
  let _ns := jsStr (getCachedString s nsId)
  let (d, n) := s.dom.alloc (mkElement tagName)
  .ok ({ s with dom := d, stack := s.stack ++ [some n] }, i)

/-- The inner loop of opcode 17: `temporaries[temp++] = children[j]` for
`j` in `[start, end)` (`count = end - start` iterations; an out-of-range
`children[j]` stores `undefined`). -/
def storeTemporaries (temps : List (Nat × JsNode)) (children : List NodeId) :
    Nat → Nat → Nat → List (Nat × JsNode)
  | _, _, 0 => temps
  | temp, start, k + 1 =>
    storeTemporaries (mapSet temps temp (children.get? start)) children (temp + 1) (start + 1) k

/-- Opcode 17, `saveChildrenToTemporaries`.  The source's inner loop shadows
`i`; the returned word index is the outer `i` advanced past the three
operands. -/
def opSaveChildrenToTemporaries (m : Mem) (s : St) (i : Nat) : OpRes := do
  let (temp, i) ← fetch32 m i s
  let (start, i) ← fetch32 m i s
  let (endIdx, i) ← fetch32 m i s
  let parent ← derefNode (topRef s) s
  let children := s.dom.childrenOf parent
  .ok ({ s with temporaries := storeTemporaries s.temporaries children temp start (endIdx - start) }, i)

/-- Opcode 18, `pushChild`. -/
def opPushChild (m : Mem) (s : St) (i : Nat) : OpRes := do
  let parent ← derefNode (topRef s) s
  let (n, i) ← fetch32 m i s
  let child := (s.dom.childrenOf parent).get? n
  .ok ({ s with stack := s.stack ++ [child] }, i)

/-- Opcode 19, `pushTemporary` (a missing slot pushes `undefined`). -/
def opPushTemporary (m : Mem) (s : St) (i : Nat) : OpRes := do
  let (temp, i) ← fetch32 m i s
  .ok ({ s with stack := s.stack ++ [(mapGet s.temporaries temp).join] }, i)

/-- Opcode 20, `insertBefore`: `after.parentNode.insertBefore(before, after)`
(a parentless `after` makes `parentNode` null and the call throws). -/
def opInsertBefore (_ : Mem) (s : St) (i : Nat) : OpRes := do
  let vBefore := topRef s
  let s := { s with stack := s.stack.dropLast }
  let vAfter := topRef s
  let s := { s with stack := s.stack.dropLast }
  let afterN ← derefNode vAfter s
  match s.dom.parentOf afterN with
  | none => .error ("TypeError: cannot read insertBefore of null", s)
  | some p => do
    let beforeN ← derefNode vBefore s
    let s := { s with dom := s.dom.insertBeforeNode p beforeN afterN }
    .ok ({ s with stack := s.stack ++ [some beforeN] }, i)

/-- Opcode 21, `popPushReverseChild`. -/
def opPopPushReverseChild (m : Mem) (s : St) (i : Nat) : OpRes := do
  let (n, i) ← fetch32 m i s
  let s := { s with stack := s.stack.dropLast }
  let parent ← derefNode (topRef s) s
  let children := s.dom.childrenOf parent
  let child := jsIndex children ((children.length : Int) - n - 1)
  .ok ({ s with stack := s.stack ++ [child] }, i)

/-- Opcode 22, `removeChild`: `childNodes[n].remove()` (an out-of-range index
yields `undefined` and the `remove` call throws). -/
def opRemoveChild (m : Mem) (s : St) (i : Nat) : OpRes := do
  let (n, i) ← fetch32 m i s
  let parent ← derefNode (topRef s) s
  let child ← derefNode ((s.dom.childrenOf parent).get? n) s
  .ok ({ s with dom := s.dom.removeNode child }, i)

/-- Opcode 23, `setClass`: assign `className` (reflected into the clone-visible
`class`). -/
def opSetClass (m : Mem) (s : St) (i : Nat) : OpRes := do
  let (classId, i) ← fetch32 m i s
  let className := jsStr (getCachedString s classId)
  let n ← derefNode (topRef s) s
  let d := s.dom.modifyNode n (fun x => { x with data := { x.data with className := className } })
  .ok ({ s with dom := d }, i)

/-- Opcode 24, `saveTemplate`: store `top.cloneNode(true)` under the id. -/
def opSaveTemplate (m : Mem) (s : St) (i : Nat) : OpRes := do
  let (id, i) ← fetch32 m i s
  let template ← derefNode (topRef s) s
  match cloneNodeDeep s.dom template with
  | none => .error ("malformed DOM tree", s)
  | some (d, root) => .ok ({ s with dom := d, templates := mapSet s.templates id root }, i)

/-- Opcode 25, `pushTemplate`: push a deep clone of the stored prototype
(`getTemplate` on a missing id returns `undefined`, so `.cloneNode` throws). -/
def opPushTemplate (m : Mem) (s : St) (i : Nat) : OpRes := do
  let (id, i) ← fetch32 m i s
  match mapGet s.templates id with
  | none => .error ("TypeError: cannot read cloneNode of undefined", s)
  | some tid =>
    match cloneNodeDeep s.dom tid with
    | none => .error ("malformed DOM tree", s)
    | some (d, root) => .ok ({ s with dom := d, stack := s.stack ++ [some root] }, i)

/-- `OP_TABLE` of the main variant, indexed by opcode. -/
def OP_TABLE : List (Mem → St → Nat → OpRes) :=
  [ opSetText, opRemoveSelfAndNextSiblings, opReplaceWith, opSetAttribute
  , opRemoveAttribute, opPushReverseChild, opPopPushChild, opPop
  , opAppendChild, opCreateTextNode, opCreateElement, opNewEventListener
  , opUpdateEventListener, opRemoveEventListener, opAddCachedString
  , opDropCachedString, opCreateElementNS, opSaveChildrenToTemporaries
  , opPushChild, opPushTemporary, opInsertBefore, opPopPushReverseChild
  , opRemoveChild, opSetClass, opSaveTemplate, opPushTemplate ]

/-- The dispatch loop of `applyChangeRange`: while `i < end`, fetch the
opcode word, look the handler up (`OP_TABLE[op]` is `undefined` for an
unknown opcode and calling it throws) and continue at the word index the
handler returns.  Handlers strictly advance the index, so fuel of at least
`end` makes the fuel guard unreachable. -/
def rangeLoop (m : Mem) (endIdx : Nat) : Nat → Nat → St → Except (String × St) St
  | 0, _, s => .ok s
  | fuel + 1, i, s =>
    if i < endIdx then
      match m.mem32.get? i with
      | none => .error ("TypeError: opcode read out of bounds", s)
      | some op =>
        match OP_TABLE.get? op with
        | none => .error ("TypeError: OP_TABLE entry is not a function", s)
        | some f =>
          match f m s (i + 1) with
          | .error e => .error e
          | .ok (s2, i2) => rangeLoop m endIdx fuel i2 s2
    else .ok s

/-- `applyChangeRange(mem8, mem32, start, len)`: interpret the words from
`start / 4` up to `(start + len) / 4` (the protocol guarantees multiples of
four; the model uses natural division). -/
def applyChangeRange (m : Mem) (s : St) (start len : Nat) : Except (String × St) St :=
  rangeLoop m ((start + len) / 4) ((start + len) / 4 + 1) (start / 4) s

/-- The `for (let i = 0; i < this.ranges.length; i += 2)` loop of
`applyChanges`: consume the pending ranges pairwise.  (No opcode touches
`ranges`, so iterating over the initial list is equivalent to the source's
indexed loop.  An odd trailing entry would pair with an `undefined` length,
making the dispatch-loop bound `NaN` so that it runs zero iterations.) -/
def runRanges (m : Mem) : List Nat → St → Except (String × St) St
  | [], s => .ok s
  | [_], s => .ok s
  | start :: len :: rest, s =>
    match applyChangeRange m s start len with
    | .error e => .error e
    | .ok s2 => runRanges m rest s2

/-- `this.container.firstChild`. -/
def containerFirstChild (s : St) : JsNode :=
  (s.dom.childrenOf s.container).head?

/-- `applyChanges(memory)` (main variant): return immediately on no pending
ranges; otherwise push the container's first child, run every range in
submission order, then perform the per-frame reset (`ranges.length = 0`,
`stack.length = 0`, `temporaries.length = 0`).  A throw from a range skips
the reset and propagates. -/
def applyChanges (m : Mem) (s : St) : Except (String × St) St :=
  if s.ranges.length = 0 then .ok s
  else
    let s1 := { s with stack := s.stack ++ [containerFirstChild s] }
    match runRanges m s.ranges s1 with
    | .error e => .error e
    | .ok s2 => .ok { s2 with ranges := [], stack := [], temporaries := [] }

/-- The shared event handler created by `initEventsTrampoline`, invoked by
the DOM for an event of type `t` on the element `n` it was registered on:
fail if the captured trampoline is unmounted, otherwise forward
`(event, a, b)` to the trampoline, where `a`/`b` are the element's
`dodrio-a-t`/`dodrio-b-t` expando properties (`undefined` when absent).  The
trampoline invocation is modelled by returning its argument triple. -/
def fireEvent (mounted : Bool) (d : Dom) (n : NodeId) (t : String) :
    Except String (String × Option Nat × Option Nat) :=
  if !mounted then .error "invocation of listener after VDOM has been unmounted"
  else
    let pay := (d.getNode n).bind (fun x => mapGet x.payloads t)
    .ok (t, pay.map Prod.fst, pay.map Prod.snd)

/-! ## The public instance interface

`unmount` nulls out every property of the instance.  The model collapses the
all-nulled object into `inst = none`; this is observationally faithful
because the only throw inside `unmount` happens before any property is
nulled, so an instance is only ever observed fully live or fully nulled.
The trampoline object passed to `initEventsTrampoline` is shared between the
instance field and the event-handler closure, so its `mounted` flag lives
beside the instance: `tramp = some m` means the object exists with
`mounted = m`, and a live instance's `this.trampoline` is null exactly when
the object was never created. -/

structure World where
  tramp : Option Bool
  inst : Option St
  deriving DecidableEq, Repr

/-- `unmount()`: the first statement `this.trampoline.mounted = false` throws
a `TypeError` when `trampoline` is null (never initialized, or already nulled
by a previous unmount), leaving every property unchanged; otherwise it marks
the trampoline unmounted and nulls out every property. -/
def wUnmount (w : World) : Except (String × World) World :=
  match w.inst with
  | none => .error ("TypeError: Cannot set properties of null", w)
  | some _ =>
    match w.tramp with
    | none => .error ("TypeError: Cannot set properties of null", w)
    | some _ => .ok { tramp := some false, inst := none }

/-- `addChangeListRange(start, len)`: two pushes onto `this.ranges` (a
`TypeError` on a nulled instance). -/
def wAddChangeListRange (w : World) (start len : Nat) : Except (String × World) World :=
  match w.inst with
  | none => .error ("TypeError: Cannot read properties of null", w)
  | some s => .ok { w with inst := some { s with ranges := s.ranges ++ [start, len] } }

/-- `applyChanges(memory)` on the instance: a `TypeError` on a nulled
instance (the first access is `this.ranges.length`), otherwise the live
`applyChanges`. -/
def wApplyChanges (w : World) (m : Mem) : Except (String × World) World :=
  match w.inst with
  | none => .error ("TypeError: Cannot read properties of null", w)
  | some s =>
    match applyChanges m s with
    | .error (e, s2) => .error (e, { w with inst := some s2 })
    | .ok s2 => .ok { w with inst := some s2 }

/-! ## The sibling-index interpreter variant

The second source variant: the traversal stack is paired with a
`siblingIndices` side-stack through the `push`/`pop`/`top`/`topSiblingIndex`
methods; there is no temporaries table and no template cache. -/

namespace Sib

/-- A JS numeric sibling index: `none` models `undefined` and `NaN` (both
propagate through `+` and make `childNodes[...]` read as `undefined`). -/
abbrev JsNum := Option Int

/-- State of a live sibling-variant `ChangeListInterpreter`. -/
structure SSt where
  container : NodeId
  ranges : List Nat
  stack : List JsNode
  siblingIndices : List JsNum
  strings : List (Nat × String)
  dom : Dom
  deriving DecidableEq, Repr

/-- Result of one sibling-variant opcode handler. -/
abbrev SOpRes := Except (String × SSt) (SSt × Nat)

/-- `push(node, siblingIndex)`: push onto both stacks. -/
def push (s : SSt) (node : JsNode) (siblingIndex : JsNum) : SSt :=
  { s with stack := s.stack ++ [node], siblingIndices := s.siblingIndices ++ [siblingIndex] }

/-- The value `pop()` returns: `this.stack.pop()`, `undefined` on empty. -/
def popVal (s : SSt) : JsNode :=
  s.stack.getLast?.join

/-- The state after `pop()`: each `Array.prototype.pop` leaves an empty
array empty. -/
def pop (s : SSt) : SSt :=
  { s with stack := s.stack.dropLast, siblingIndices := s.siblingIndices.dropLast }

/-- `top()`. -/
def top (s : SSt) : JsNode :=
  s.stack.getLast?.join

/-- `topSiblingIndex()` (`undefined` when the side-stack is empty). -/
def topSiblingIndex (s : SSt) : JsNum :=
  s.siblingIndices.getLast?.join

/-- Dereference a node reference (see `derefNode`). -/
def sDeref (v : JsNode) (s : SSt) : Except (String × SSt) NodeId :=
  match v with
  | none => .error ("TypeError: node reference is null or undefined", s)
  | some n => .ok n

/-- Fetch `mem32[i++]` (see `fetch32`). -/
def sFetch32 (m : Mem) (i : Nat) (s : SSt) : Except (String × SSt) (Nat × Nat) :=
  match m.mem32.get? i with
  | none => .error ("memory read out of bounds", s)
  | some w => .ok (w, i + 1)

/-- `getCachedString(id)`. -/
def sGetCachedString (s : SSt) (id : Nat) : Option String :=
  mapGet s.strings id

/-- Opcode 0, `setText`. -/
def sOpSetText (m : Mem) (s : SSt) (i : Nat) : SOpRes := do
  let (pointer, i) ← sFetch32 m i s
  let (length, i) ← sFetch32 m i s
  let str := memString m pointer length
  let n ← sDeref (top s) s
  .ok ({ s with dom := s.dom.setTextContent n str }, i)

/-- Opcode 1, `removeSelfAndNextSiblings` (the pop goes through the paired
`pop()`). -/
def sOpRemoveSelfAndNextSiblings (_ : Mem) (s : SSt) (i : Nat) : SOpRes := do
  let v := popVal s
  let s := pop s
  let node ← sDeref v s
  let d := removeChain s.dom s.dom.nodes.length (s.dom.nextSibling node)
  .ok ({ s with dom := d.removeNode node }, i)

/-- Opcode 2, `replaceWith`: the replacement is pushed with the replaced
node's sibling index. -/
def sOpReplaceWith (_ : Mem) (s : SSt) (i : Nat) : SOpRes := do
  let vNew := popVal s
  let s := pop s
  let oldSiblingIndex := topSiblingIndex s
  let vOld := popVal s
  let s := pop s
  let oldNode ← sDeref vOld s
  let newNode ← sDeref vNew s
  let s := { s with dom := s.dom.replaceWithNode oldNode newNode }
  .ok (push s (some newNode) oldSiblingIndex, i)

/-- Opcode 3, `setAttribute`. -/
def sOpSetAttribute (m : Mem) (s : SSt) (i : Nat) : SOpRes := do
  let (nameId, i) ← sFetch32 m i s
  let (valueId, i) ← sFetch32 m i s
  let name := jsStr (sGetCachedString s nameId)
  let value := jsStr (sGetCachedString s valueId)
  let n ← sDeref (top s) s
  match s.dom.getNode n with
  | none => .error ("TypeError: dangling node reference", s)
  | some node =>
    if node.data.isText then
      .error ("TypeError: node.setAttribute is not a function", s)
    else
      let d := s.dom.modifyNode n
        (fun x => { x with data := { x.data with attrs := mapSet x.data.attrs name value } })
      let d := if name = "value" then d.modifyNode n (fun x => { x with propValue := some value }) else d
      let d := if name = "checked" then d.modifyNode n (fun x => { x with propChecked := true }) else d
      let d := if name = "selected" then d.modifyNode n (fun x => { x with propSelected := true }) else d
      .ok ({ s with dom := d }, i)

/-- Opcode 4, `removeAttribute`. -/
def sOpRemoveAttribute (m : Mem) (s : SSt) (i : Nat) : SOpRes := do
  let (nameId, i) ← sFetch32 m i s
  let name := jsStr (sGetCachedString s nameId)
  let n ← sDeref (top s) s
  match s.dom.getNode n with
  | none => .error ("TypeError: dangling node reference", s)
  | some node =>
    if node.data.isText then
      .error ("TypeError: node.removeAttribute is not a function", s)
    else
      let d := s.dom.modifyNode n
        (fun x => { x with data := { x.data with attrs := mapDel x.data.attrs name } })
      let d := if name = "value" then d.modifyNode n (fun x => { x with propValue := none }) else d
      let d := if name = "checked" then d.modifyNode n (fun x => { x with propChecked := false }) else d
      let d := if name = "selected" then d.modifyNode n (fun x => { x with propSelected := false }) else d
      .ok ({ s with dom := d }, i)

/-- Opcode 5, `pushFirstChild`: push `top().firstChild` with sibling index 0. -/
def sOpPushFirstChild (_ : Mem) (s : SSt) (i : Nat) : SOpRes := do
  let n ← sDeref (top s) s
  .ok (push s (s.dom.childrenOf n).head? (some 0), i)

/-- Opcode 6, `popPushNextSibling`: push `node.nextSibling` with the popped
node's sibling index plus one. -/
def sOpPopPushNextSibling (_ : Mem) (s : SSt) (i : Nat) : SOpRes := do
  let siblingIndex := topSiblingIndex s
  let v := popVal s
  let s := pop s
  let node ← sDeref v s
  .ok (push s (s.dom.nextSibling node) (siblingIndex.map (· + 1)), i)

/-- Opcode 7, `pop`. -/
def sOpPop (_ : Mem) (s : SSt) (i : Nat) : SOpRes :=
  .ok (pop s, i)

/-- Opcode 8, `appendChild`. -/
def sOpAppendChild (_ : Mem) (s : SSt) (i : Nat) : SOpRes := do
  let vChild := popVal s
  let s := pop s
  let child ← sDeref vChild s
  let parent ← sDeref (top s) s
  match s.dom.getNode parent with
  | none => .error ("TypeError: dangling node reference", s)
  | some pnode =>
    if pnode.data.isText then
      .error ("HierarchyRequestError: nodes of this type may not have children", s)
    else
      .ok ({ s with dom := s.dom.appendChildNode parent child }, i)

/-- Opcode 9, `createTextNode`: pushed with sibling index −1. -/
def sOpCreateTextNode (m : Mem) (s : SSt) (i : Nat) : SOpRes := do
  let (pointer, i) ← sFetch32 m i s
  let (length, i) ← sFetch32 m i s
  let text := memString m pointer length
  let (d, n) := s.dom.alloc (mkTextNode text)
  .ok (push { s with dom := d } (some n) (some (-1)), i)

/-- Opcode 10, `createElement`: pushed with sibling index −1. -/
def sOpCreateElement (m : Mem) (s : SSt) (i : Nat) : SOpRes := do
  let (tagNameId, i) ← sFetch32 m i s
  let tagName := jsStr (sGetCachedString s tagNameId)
  let (d, n) := s.dom.alloc (mkElement tagName)
  .ok (push { s with dom := d } (some n) (some (-1)), i)

/-- Opcode 11, `newEventListener`. -/
def sOpNewEventListener (m : Mem) (s : SSt) (i : Nat) : SOpRes := do
  let (eventId, i) ← sFetch32 m i s
  let eventType := jsStr (sGetCachedString s eventId)
  let (a, i) ← sFetch32 m i s
  let (b, i) ← sFetch32 m i s
  let el ← sDeref (top s) s
  let d := s.dom.modifyNode el (fun x =>
    { x with listeners := if eventType ∈ x.listeners then x.listeners else x.listeners ++ [eventType] })
  let d := d.modifyNode el (fun x => { x with payloads := mapSet x.payloads eventType (a, b) })
  .ok ({ s with dom := d }, i)

/-- Opcode 12, `updateEventListener`. -/
def sOpUpdateEventListener (m : Mem) (s : SSt) (i : Nat) : SOpRes := do
  let (eventId, i) ← sFetch32 m i s
  let eventType := jsStr (sGetCachedString s eventId)
  let el ← sDeref (top s) s
  let (a, i) ← sFetch32 m i s
  let (b, i) ← sFetch32 m i s
  let d := s.dom.modifyNode el (fun x => { x with payloads := mapSet x.payloads eventType (a, b) })
  .ok ({ s with dom := d }, i)

/-- Opcode 13, `removeEventListener`. -/
def sOpRemoveEventListener (m : Mem) (s : SSt) (i : Nat) : SOpRes := do
  let (eventId, i) ← sFetch32 m i s
  let eventType := jsStr (sGetCachedString s eventId)
  let el ← sDeref (top s) s
  let d := s.dom.modifyNode el (fun x => { x with listeners := x.listeners.erase eventType })
  .ok ({ s with dom := d }, i)

/-- Opcode 14, `addCachedString`. -/
def sOpAddCachedString (m : Mem) (s : SSt) (i : Nat) : SOpRes := do
  let (pointer, i) ← sFetch32 m i s
  let (length, i) ← sFetch32 m i s
  let (id, i) ← sFetch32 m i s
  let str := memString m pointer length
  .ok ({ s with strings := mapSet s.strings id str }, i)

/-- Opcode 15, `dropCachedString`. -/
def sOpDropCachedString (m : Mem) (s : SSt) (i : Nat) : SOpRes := do
  let (id, i) ← sFetch32 m i s
  .ok ({ s with strings := mapDel s.strings id }, i)

/-- Opcode 16, `createElementNS`: pushed with sibling index −1. -/
def sOpCreateElementNS (m : Mem) (s : SSt) (i : Nat) : SOpRes := do
  let (tagNameId, i) ← sFetch32 m i s
  let tagName := jsStr (sGetCachedString s tagNameId)
  let (nsId, i) ← sFetch32 m i s
  let _ns := jsStr (sGetCachedString s nsId)
  let (d, n) := s.dom.alloc (mkElement tagName)
  .ok (push { s with dom := d } (some n) (some (-1)), i)

/-- Opcode 17, `pushChild`: push `childNodes[index]` with sibling index
`index`. -/
def sOpPushChild (m : Mem) (s : SSt) (i : Nat) : SOpRes := do
  let (index, i) ← sFetch32 m i s
  let parent ← sDeref (top s) s
  let child := (s.dom.childrenOf parent).get? index
  .ok (push s child (some (index : Int)), i)

/-- Opcode 18, `popPushSibling`: jump to the sibling at
`topSiblingIndex() + relativeIndex` of the popped node's parent. -/
def sOpPopPushSibling (m : Mem) (s : SSt) (i : Nat) : SOpRes := do
  let baseIndex := topSiblingIndex s
  let v := popVal s
  let s := pop s
  let (relativeIndex, i) ← sFetch32 m i s
  let absoluteIndex := baseIndex.map (· + (relativeIndex : Int))
  let node ← sDeref v s
  match s.dom.parentOf node with
  | none => .error ("TypeError: cannot read childNodes of null", s)
  | some p =>
    let sibling :=
      match absoluteIndex with
      | none => none
      | some k => jsIndex (s.dom.childrenOf p) k
    .ok (push s sibling absoluteIndex, i)

/-- `OP_TABLE` of the sibling-index variant, indexed by opcode. -/
def SOP_TABLE : List (Mem → SSt → Nat → SOpRes) :=
  [ sOpSetText, sOpRemoveSelfAndNextSiblings, sOpReplaceWith, sOpSetAttribute
  , sOpRemoveAttribute, sOpPushFirstChild, sOpPopPushNextSibling, sOpPop
  , sOpAppendChild, sOpCreateTextNode, sOpCreateElement, sOpNewEventListener
  , sOpUpdateEventListener, sOpRemoveEventListener, sOpAddCachedString
  , sOpDropCachedString, sOpCreateElementNS, sOpPushChild, sOpPopPushSibling ]

/-- The sibling-variant dispatch loop (see `rangeLoop`). -/
def sRangeLoop (m : Mem) (endIdx : Nat) : Nat → Nat → SSt → Except (String × SSt) SSt
  | 0, _, s => .ok s
  | fuel + 1, i, s =>
    if i < endIdx then
      match m.mem32.get? i with
      | none => .error ("TypeError: opcode read out of bounds", s)
      | some op =>
        match SOP_TABLE.get? op with
        | none => .error ("TypeError: OP_TABLE entry is not a function", s)
        | some f =>
          match f m s (i + 1) with
          | .error e => .error e
          | .ok (s2, i2) => sRangeLoop m endIdx fuel i2 s2
    else .ok s

/-- `applyChangeRange` (sibling variant). -/
def sApplyChangeRange (m : Mem) (s : SSt) (start len : Nat) : Except (String × SSt) SSt :=
  sRangeLoop m ((start + len) / 4) ((start + len) / 4 + 1) (start / 4) s

/-- The range loop of the sibling-variant `applyChanges` (see `runRanges`). -/
def sRunRanges (m : Mem) : List Nat → SSt → Except (String × SSt) SSt
  | [], s => .ok s
  | [_], s => .ok s
  | start :: len :: rest, s =>
    match sApplyChangeRange m s start len with
    | .error e => .error e
    | .ok s2 => sRunRanges m rest s2

/-- `this.container.firstChild` (sibling variant). -/
def sContainerFirstChild (s : SSt) : JsNode :=
  (s.dom.childrenOf s.container).head?

/-- `applyChanges(memory)` (sibling variant): the initial cursor is pushed
onto `stack` directly — not through the paired `push`, so no sibling index
is recorded for it — and the per-frame reset clears `ranges` and `stack`
only, leaving `siblingIndices` untouched. -/
def sApplyChanges (m : Mem) (s : SSt) : Except (String × SSt) SSt :=
  if s.ranges.length = 0 then .ok s
  else
    let s1 := { s with stack := s.stack ++ [sContainerFirstChild s] }
    match sRunRanges m s.ranges s1 with
    | .error e => .error e
    | .ok s2 => .ok { s2 with ranges := [], stack := [] }

end Sib

/-! ## Concrete fixtures for witnesses and counterexamples -/

/-- Example heap: node 0 is a container `<div>` whose children are nodes
1, 2, 3 (`<a/>`, `<b/>`, `<c/>`). -/
def exDom : Dom := ⟨[
  { mkElement "div" with children := [1, 2, 3] },
  { mkElement "a" with parent := some 0 },
  { mkElement "b" with parent := some 0 },
  { mkElement "c" with parent := some 0 } ]⟩

/-- A live main-variant interpreter over `exDom` with one pending range at
bytes `[0, 4)`. -/
def exSt : St :=
  { container := 0, ranges := [0, 4], stack := [], strings := [], temporaries := []
  , templates := [], dom := exDom }

/-- A live sibling-variant interpreter over `exDom` with one pending range at
bytes `[0, 4)`. -/
def exSib : Sib.SSt :=
  { container := 0, ranges := [0, 4], stack := [], siblingIndices := []
  , strings := [], dom := exDom }

/-! ## Claim C1 -/

/-- C1 counterexample: a commit that completes without throwing but whose
per-frame reset does not leave `siblingIndices` empty.  In the sibling-index
variant, `applyChanges` over the single-opcode range `pushFirstChild` runs to
completion, yet the final state has `siblingIndices = [some 0]` (the reset
clears only `ranges` and `stack`), contradicting the claim that the reset
leaves `stack`, `siblingIndices`, `ranges`, and `temporaries` all empty. -/
theorem c1_reset_keeps_sibling_indices_counterexample :
    (Sib.sApplyChanges ⟨[], [5]⟩ exSib).toOption.map
      (fun s => (s.stack, s.siblingIndices)) = some ([], [some 0]) := by
  decide

/-- C1 (amended): for every `applyChanges` call with at least one pending
range whose opcode ranges complete without throwing, the per-frame reset
leaves `stack`, `ranges` and `temporaries` empty in the main variant, and
`stack` and `ranges` empty in the sibling-index variant — `siblingIndices` is
not cleared by the reset — and in both variants the reset removes no entry
from `strings` (or `templates`): those maps are exactly as the executed
opcodes left them (`s2` is the state the range loop produced). -/
theorem c1_frame_reset_amended :
    (∀ (m : Mem) (s s2 : St), s.ranges ≠ [] →
      runRanges m s.ranges { s with stack := s.stack ++ [containerFirstChild s] } = .ok s2 →
      applyChanges m s =
        .ok { container := s2.container, ranges := [], stack := [], strings := s2.strings,
              temporaries := [], templates := s2.templates, dom := s2.dom }) ∧
    (∀ (m : Mem) (s s2 : Sib.SSt), s.ranges ≠ [] →
      Sib.sRunRanges m s.ranges { s with stack := s.stack ++ [Sib.sContainerFirstChild s] } = .ok s2 →
      Sib.sApplyChanges m s =
        .ok { container := s2.container, ranges := [], stack := [],
              siblingIndices := s2.siblingIndices, strings := s2.strings, dom := s2.dom }) := by
  constructor
  · intro m s s2 hne hok
    have hlen : ¬ s.ranges.length = 0 := by
      simpa [List.length_eq_zero] using hne
    unfold applyChanges
    rw [if_neg hlen]
    simp only [hok]
  · intro m s s2 hne hok
    have hlen : ¬ s.ranges.length = 0 := by
      simpa [List.length_eq_zero] using hne
    unfold Sib.sApplyChanges
    rw [if_neg hlen]
    simp only [hok]

/-- C1 witness: the amended theorem applied to concrete commits (main
variant: the single opcode `pop`; sibling variant: the single opcode `pop`,
whose paired pop leaves both stacks empty). -/
theorem c1_frame_reset_witness :
    applyChanges ⟨[], [7]⟩ exSt = .ok { exSt with ranges := [] } ∧
    Sib.sApplyChanges ⟨[], [7]⟩ exSib = .ok { exSib with ranges := [] } :=
  ⟨c1_frame_reset_amended.1 ⟨[], [7]⟩ exSt { exSt with stack := [] } (by decide) (by rfl),
   c1_frame_reset_amended.2 ⟨[], [7]⟩ exSib { exSib with stack := [] } (by decide) (by rfl)⟩

/-! ## Association-list and heap lemmas -/

theorem mapGet_mapSet_self {κ α : Type} [DecidableEq κ] (m : List (κ × α)) (k : κ) (v : α) :
    mapGet (mapSet m k v) k = some v := by
  induction m with
  | nil => simp [mapSet, mapGet]
  | cons hd t ih =>
    obtain ⟨k2, v2⟩ := hd
    by_cases hk : k2 = k
    · subst hk; simp [mapSet, mapGet]
    · simp [mapSet, mapGet, hk, ih]

theorem mapGet_mapSet_ne {κ α : Type} [DecidableEq κ] (m : List (κ × α)) (k k2 : κ) (v : α)
    (hne : k2 ≠ k) : mapGet (mapSet m k v) k2 = mapGet m k2 := by
  have hne2 : ¬ k = k2 := fun hh => hne hh.symm
  induction m with
  | nil => simp [mapSet, mapGet, hne2]
  | cons hd t ih =>
    obtain ⟨k3, v3⟩ := hd
    by_cases hk : k3 = k
    · subst hk; simp [mapSet, mapGet, hne2]
    · simp only [mapSet, if_neg hk, mapGet]
      by_cases hk2 : k3 = k2 <;> simp [hk2, ih]

theorem mapGet_of_not_mem {κ α : Type} [DecidableEq κ] (m : List (κ × α)) (k : κ)
    (h : k ∉ m.map Prod.fst) : mapGet m k = none := by
  induction m with
  | nil => rfl
  | cons hd t ih =>
    obtain ⟨k2, v2⟩ := hd
    simp only [List.map_cons, List.mem_cons] at h
    push_neg at h
    have h1 : ¬ k2 = k := fun hh => h.1 hh.symm
    simp [mapGet, h1, ih h.2]

theorem mapGet_mapDel_self {κ α : Type} [DecidableEq κ] (m : List (κ × α)) (k : κ)
    (hnd : (m.map Prod.fst).Nodup) : mapGet (mapDel m k) k = none := by
  induction m with
  | nil => rfl
  | cons hd t ih =>
    obtain ⟨k2, v2⟩ := hd
    simp only [List.map_cons, List.nodup_cons] at hnd
    by_cases hk : k2 = k
    · subst hk
      simp only [mapDel, if_pos rfl]
      exact mapGet_of_not_mem t k2 hnd.1
    · simp [mapDel, mapGet, hk, ih hnd.2]

theorem getNode_modifyNode_self (d : Dom) (n : NodeId) (f : DomNode → DomNode) (x : DomNode)
    (h : d.getNode n = some x) : (d.modifyNode n f).getNode n = some (f x) := by
  unfold Dom.getNode at *
  unfold Dom.modifyNode
  rw [h]
  simp only [Dom.getNode]
  have hlt : n < d.nodes.length := by
    rcases List.get?_eq_some.mp h with ⟨hl, _⟩
    exact hl
  rw [List.get?_set_eq_of_lt _ hlt]

theorem getNode_modifyNode_ne (d : Dom) (n n2 : NodeId) (f : DomNode → DomNode)
    (h : n2 ≠ n) : (d.modifyNode n f).getNode n2 = d.getNode n2 := by
  unfold Dom.modifyNode
  cases hn : d.nodes.get? n with
  | none => rfl
  | some x =>
    unfold Dom.getNode
    exact List.get?_set_ne _ _ (fun hh => h hh.symm)

/-! ## Observables on the heap -/

/-- `n.getAttribute(name)`. -/
def attrOf (d : Dom) (n : NodeId) (name : String) : Option String :=
  (d.getNode n).bind (fun x => mapGet x.data.attrs name)

/-- The live `.value` property (`none` models JS `null`). -/
def propValueOf (d : Dom) (n : NodeId) : Option String :=
  (d.getNode n).bind (fun x => x.propValue)

/-- The live `.checked` property. -/
def propCheckedOf (d : Dom) (n : NodeId) : Bool :=
  ((d.getNode n).map (fun x => x.propChecked)).getD false

/-- The live `.selected` property. -/
def propSelectedOf (d : Dom) (n : NodeId) : Bool :=
  ((d.getNode n).map (fun x => x.propSelected)).getD false

/-- The event types for which the shared handler is registered on `n`. -/
def listenersOf (d : Dom) (n : NodeId) : List String :=
  ((d.getNode n).map (fun x => x.listeners)).getD []

/-- The `dodrio-a-*`/`dodrio-b-*` payload pairs stored on `n`. -/
def payloadsOf (d : Dom) (n : NodeId) : List (String × Nat × Nat) :=
  ((d.getNode n).map (fun x => x.payloads)).getD []

/-! ## Claim C3 -/

/-- C3: with the string cache mapping `nidV ↦ "value"`, `nidC ↦ "checked"`,
`nidS ↦ "selected"` and `vid ↦ v`, and an element node `n` on top of the
stack: `setAttribute(nidV, vid)` sets both the attribute "value" to `v` and
the live `.value` property to `v`; names "checked"/"selected" also set the
corresponding live property (to `true`); `removeAttribute` with each of
these names removes the attribute and resets the property — `.value` to
null, `.checked` to `false`, `.selected` to `false`. -/
theorem c3_volatile_attributes (s : St) (n : NodeId) (x : DomNode)
    (nidV nidC nidS vid : Nat) (v : String)
    (htop : topRef s = some n)
    (hx : s.dom.getNode n = some x)
    (helem : x.data.isText = false)
    (hnd : (x.data.attrs.map Prod.fst).Nodup)
    (hv : mapGet s.strings nidV = some "value")
    (hc : mapGet s.strings nidC = some "checked")
    (hsel : mapGet s.strings nidS = some "selected")
    (hval : mapGet s.strings vid = some v) :
    (∃ d, opSetAttribute ⟨[], [nidV, vid]⟩ s 0 = .ok ({ s with dom := d }, 2) ∧
       attrOf d n "value" = some v ∧ propValueOf d n = some v) ∧
    (∃ d, opSetAttribute ⟨[], [nidC, vid]⟩ s 0 = .ok ({ s with dom := d }, 2) ∧
       attrOf d n "checked" = some v ∧ propCheckedOf d n = true) ∧
    (∃ d, opSetAttribute ⟨[], [nidS, vid]⟩ s 0 = .ok ({ s with dom := d }, 2) ∧
       attrOf d n "selected" = some v ∧ propSelectedOf d n = true) ∧
    (∃ d, opRemoveAttribute ⟨[], [nidV]⟩ s 0 = .ok ({ s with dom := d }, 1) ∧
       attrOf d n "value" = none ∧ propValueOf d n = none) ∧
    (∃ d, opRemoveAttribute ⟨[], [nidC]⟩ s 0 = .ok ({ s with dom := d }, 1) ∧
       attrOf d n "checked" = none ∧ propCheckedOf d n = false) ∧
    (∃ d, opRemoveAttribute ⟨[], [nidS]⟩ s 0 = .ok ({ s with dom := d }, 1) ∧
       attrOf d n "selected" = none ∧ propSelectedOf d n = false) := by
  refine ⟨?_, ?_, ?_, ?_, ?_, ?_⟩
  · refine ⟨(s.dom.modifyNode n
        (fun y => { y with data := { y.data with attrs := mapSet y.data.attrs "value" v } })).modifyNode n
        (fun y => { y with propValue := some v }), ?_, ?_, ?_⟩
    · simp [opSetAttribute, fetch32, getCachedString, hv, hval, htop, derefNode, hx, helem,
        jsStr, bind, Except.bind]
    · have h1 := getNode_modifyNode_self s.dom n
        (fun y => { y with data := { y.data with attrs := mapSet y.data.attrs "value" v } }) x hx
      have h2 := getNode_modifyNode_self _ n (fun y => { y with propValue := some v }) _ h1
      simp [attrOf, h2, mapGet_mapSet_self]
    · have h1 := getNode_modifyNode_self s.dom n
        (fun y => { y with data := { y.data with attrs := mapSet y.data.attrs "value" v } }) x hx
      have h2 := getNode_modifyNode_self _ n (fun y => { y with propValue := some v }) _ h1
      simp [propValueOf, h2]
  · refine ⟨(s.dom.modifyNode n
        (fun y => { y with data := { y.data with attrs := mapSet y.data.attrs "checked" v } })).modifyNode n
        (fun y => { y with propChecked := true }), ?_, ?_, ?_⟩
    · simp [opSetAttribute, fetch32, getCachedString, hc, hval, htop, derefNode, hx, helem,
        jsStr, bind, Except.bind]
    · have h1 := getNode_modifyNode_self s.dom n
        (fun y => { y with data := { y.data with attrs := mapSet y.data.attrs "checked" v } }) x hx
      have h2 := getNode_modifyNode_self _ n (fun y => { y with propChecked := true }) _ h1
      simp [attrOf, h2, mapGet_mapSet_self]
    · have h1 := getNode_modifyNode_self s.dom n
        (fun y => { y with data := { y.data with attrs := mapSet y.data.attrs "checked" v } }) x hx
      have h2 := getNode_modifyNode_self _ n (fun y => { y with propChecked := true }) _ h1
      simp [propCheckedOf, h2]
  · refine ⟨(s.dom.modifyNode n
        (fun y => { y with data := { y.data with attrs := mapSet y.data.attrs "selected" v } })).modifyNode n
        (fun y => { y with propSelected := true }), ?_, ?_, ?_⟩
    · simp [opSetAttribute, fetch32, getCachedString, hsel, hval, htop, derefNode, hx, helem,
        jsStr, bind, Except.bind]
    · have h1 := getNode_modifyNode_self s.dom n
        (fun y => { y with data := { y.data with attrs := mapSet y.data.attrs "selected" v } }) x hx
      have h2 := getNode_modifyNode_self _ n (fun y => { y with propSelected := true }) _ h1
      simp [attrOf, h2, mapGet_mapSet_self]
    · have h1 := getNode_modifyNode_self s.dom n
        (fun y => { y with data := { y.data with attrs := mapSet y.data.attrs "selected" v } }) x hx
      have h2 := getNode_modifyNode_self _ n (fun y => { y with propSelected := true }) _ h1
      simp [propSelectedOf, h2]
  · refine ⟨(s.dom.modifyNode n
        (fun y => { y with data := { y.data with attrs := mapDel y.data.attrs "value" } })).modifyNode n
        (fun y => { y with propValue := none }), ?_, ?_, ?_⟩
    · simp [opRemoveAttribute, fetch32, getCachedString, hv, htop, derefNode, hx, helem,
        jsStr, bind, Except.bind]
    · have h1 := getNode_modifyNode_self s.dom n
        (fun y => { y with data := { y.data with attrs := mapDel y.data.attrs "value" } }) x hx
      have h2 := getNode_modifyNode_self _ n (fun y => { y with propValue := none }) _ h1
      simp [attrOf, h2, mapGet_mapDel_self _ _ hnd]
    · have h1 := getNode_modifyNode_self s.dom n
        (fun y => { y with data := { y.data with attrs := mapDel y.data.attrs "value" } }) x hx
      have h2 := getNode_modifyNode_self _ n (fun y => { y with propValue := none }) _ h1
      simp [propValueOf, h2]
  · refine ⟨(s.dom.modifyNode n
        (fun y => { y with data := { y.data with attrs := mapDel y.data.attrs "checked" } })).modifyNode n
        (fun y => { y with propChecked := false }), ?_, ?_, ?_⟩
    · simp [opRemoveAttribute, fetch32, getCachedString, hc, htop, derefNode, hx, helem,
        jsStr, bind, Except.bind]
    · have h1 := getNode_modifyNode_self s.dom n
        (fun y => { y with data := { y.data with attrs := mapDel y.data.attrs "checked" } }) x hx
      have h2 := getNode_modifyNode_self _ n (fun y => { y with propChecked := false }) _ h1
      simp [attrOf, h2, mapGet_mapDel_self _ _ hnd]
    · have h1 := getNode_modifyNode_self s.dom n
        (fun y => { y with data := { y.data with attrs := mapDel y.data.attrs "checked" } }) x hx
      have h2 := getNode_modifyNode_self _ n (fun y => { y with propChecked := false }) _ h1
      simp [propCheckedOf, h2]
  · refine ⟨(s.dom.modifyNode n
        (fun y => { y with data := { y.data with attrs := mapDel y.data.attrs "selected" } })).modifyNode n
        (fun y => { y with propSelected := false }), ?_, ?_, ?_⟩
    · simp [opRemoveAttribute, fetch32, getCachedString, hsel, htop, derefNode, hx, helem,
        jsStr, bind, Except.bind]
    · have h1 := getNode_modifyNode_self s.dom n
        (fun y => { y with data := { y.data with attrs := mapDel y.data.attrs "selected" } }) x hx
      have h2 := getNode_modifyNode_self _ n (fun y => { y with propSelected := false }) _ h1
      simp [attrOf, h2, mapGet_mapDel_self _ _ hnd]
    · have h1 := getNode_modifyNode_self s.dom n
        (fun y => { y with data := { y.data with attrs := mapDel y.data.attrs "selected" } }) x hx
      have h2 := getNode_modifyNode_self _ n (fun y => { y with propSelected := false }) _ h1
      simp [propSelectedOf, h2]

/-- Fixture for C3: an `<input>` element (node 1) inside a container, with
the strings `value`/`checked`/`selected`/`42` cached at ids 1..4 and node 1
on top of the stack. -/
def c3St : St :=
  { container := 0, ranges := [], stack := [some 1]
  , strings := [(1, "value"), (2, "checked"), (3, "selected"), (4, "42")]
  , temporaries := [], templates := []
  , dom := ⟨[{ mkElement "div" with children := [1] }, { mkElement "input" with parent := some 0 }]⟩ }

/-- C3 witness: the theorem applied to `c3St` (the spec's volatile-attribute
scenario: `input.getAttribute("value") = "42"` and `input.value = "42"`). -/
theorem c3_volatile_attributes_witness :
    (∃ d, opSetAttribute ⟨[], [1, 4]⟩ c3St 0 = .ok ({ c3St with dom := d }, 2) ∧
       attrOf d 1 "value" = some "42" ∧ propValueOf d 1 = some "42") ∧
    (∃ d, opSetAttribute ⟨[], [2, 4]⟩ c3St 0 = .ok ({ c3St with dom := d }, 2) ∧
       attrOf d 1 "checked" = some "42" ∧ propCheckedOf d 1 = true) ∧
    (∃ d, opSetAttribute ⟨[], [3, 4]⟩ c3St 0 = .ok ({ c3St with dom := d }, 2) ∧
       attrOf d 1 "selected" = some "42" ∧ propSelectedOf d 1 = true) ∧
    (∃ d, opRemoveAttribute ⟨[], [1]⟩ c3St 0 = .ok ({ c3St with dom := d }, 1) ∧
       attrOf d 1 "value" = none ∧ propValueOf d 1 = none) ∧
    (∃ d, opRemoveAttribute ⟨[], [2]⟩ c3St 0 = .ok ({ c3St with dom := d }, 1) ∧
       attrOf d 1 "checked" = none ∧ propCheckedOf d 1 = false) ∧
    (∃ d, opRemoveAttribute ⟨[], [3]⟩ c3St 0 = .ok ({ c3St with dom := d }, 1) ∧
       attrOf d 1 "selected" = none ∧ propSelectedOf d 1 = false) :=
  c3_volatile_attributes c3St 1 { mkElement "input" with parent := some 0 } 1 2 3 4 "42"
    (by rfl) (by rfl) (by rfl) (by decide) (by rfl) (by rfl) (by rfl) (by rfl)

/-! ## Claim C4: write/read lemmas for deep clones -/

mutual

/-- Number of nodes in a subtree value. -/
def treeSize : DTree → Nat
  | .mk _ cs => 1 + forestSize cs

/-- Number of nodes in a list of subtree values. -/
def forestSize : List DTree → Nat
  | [] => 0
  | t :: ts => treeSize t + forestSize ts

end

theorem modifyNode_length (d : Dom) (n : NodeId) (f : DomNode → DomNode) :
    (d.modifyNode n f).nodes.length = d.nodes.length := by
  unfold Dom.modifyNode
  cases d.nodes.get? n <;> simp

mutual

theorem writeTree_length (d : Dom) (p : Option NodeId) (t : DTree) :
    (writeTree d p t).1.nodes.length = d.nodes.length + treeSize t := by
  cases t with
  | mk nd cs =>
    rw [writeTree]
    rcases hw : writeForest ⟨d.nodes ++ [freshFromData nd p]⟩ (some d.nodes.length) cs
      with ⟨d2, cids⟩
    have hlen : d2.nodes.length = d.nodes.length + 1 + forestSize cs := by
      have h := writeForest_length ⟨d.nodes ++ [freshFromData nd p]⟩ (some d.nodes.length) cs
      rw [hw] at h
      simpa using h
    simp only [hw, modifyNode_length, treeSize]
    omega

theorem writeForest_length (d : Dom) (p : Option NodeId) (ts : List DTree) :
    (writeForest d p ts).1.nodes.length = d.nodes.length + forestSize ts := by
  cases ts with
  | nil => simp [writeForest, forestSize]
  | cons t ts =>
    rw [writeForest]
    rcases h1 : writeTree d p t with ⟨d1, r⟩
    rcases h2 : writeForest d1 p ts with ⟨d2, rs⟩
    have e1 : d1.nodes.length = d.nodes.length + treeSize t := by
      have h := writeTree_length d p t
      rw [h1] at h
      simpa using h
    have e2 : d2.nodes.length = d1.nodes.length + forestSize ts := by
      have h := writeForest_length d1 p ts
      rw [h2] at h
      simpa using h
    simp only [h1, h2, forestSize]
    omega

end

mutual

theorem writeTree_getNode_lo (d : Dom) (p : Option NodeId) (t : DTree) (j : NodeId)
    (hj : j < d.nodes.length) : (writeTree d p t).1.getNode j = d.getNode j := by
  cases t with
  | mk nd cs =>
    rw [writeTree]
    rcases hw : writeForest ⟨d.nodes ++ [freshFromData nd p]⟩ (some d.nodes.length) cs
      with ⟨d2, cids⟩
    have hfor : d2.getNode j = Dom.getNode ⟨d.nodes ++ [freshFromData nd p]⟩ j := by
      have h := writeForest_getNode_lo ⟨d.nodes ++ [freshFromData nd p]⟩
        (some d.nodes.length) cs j (by simpa using Nat.lt_succ_of_lt hj)
      rw [hw] at h
      exact h
    simp only [hw]
    rw [getNode_modifyNode_ne _ _ _ _ (Nat.ne_of_lt hj), hfor]
    unfold Dom.getNode
    exact List.get?_append hj

theorem writeForest_getNode_lo (d : Dom) (p : Option NodeId) (ts : List DTree) (j : NodeId)
    (hj : j < d.nodes.length) : (writeForest d p ts).1.getNode j = d.getNode j := by
  cases ts with
  | nil => simp [writeForest]
  | cons t ts =>
    rw [writeForest]
    rcases h1 : writeTree d p t with ⟨d1, r⟩
    rcases h2 : writeForest d1 p ts with ⟨d2, rs⟩
    have e1 : d1.getNode j = d.getNode j := by
      have h := writeTree_getNode_lo d p t j hj
      rw [h1] at h
      exact h
    have hd1len : d1.nodes.length = d.nodes.length + treeSize t := by
      have h := writeTree_length d p t
      rw [h1] at h
      simpa using h
    have e2 : d2.getNode j = d1.getNode j := by
      have h := writeForest_getNode_lo d1 p ts j
        (by rw [hd1len]; exact Nat.lt_of_lt_of_le hj (Nat.le_add_right _ _))
      rw [h2] at h
      exact h
    simp only [h1, h2]
    rw [e2]
    exact e1

end

theorem writeTree_root (d : Dom) (p : Option NodeId) (t : DTree) :
    (writeTree d p t).2 = d.nodes.length := by
  cases t with
  | mk nd cs =>
    rw [writeTree]

theorem readTree_succ (d : Dom) (fuel : Nat) (n : NodeId) :
    readTree d (fuel + 1) n =
      match d.getNode n with
      | none => none
      | some x => (readForest d fuel x.children).map (DTree.mk x.data) := by
  rw [readTree]

theorem readForest_nil (d : Dom) (fuel : Nat) : readForest d fuel [] = some [] := by
  rw [readForest]

theorem readForest_cons (d : Dom) (fuel : Nat) (c : NodeId) (cs : List NodeId) :
    readForest d fuel (c :: cs) =
      match readTree d fuel c, readForest d fuel cs with
      | some t, some ts => some (t :: ts)
      | _, _ => none := by
  rw [readForest]

mutual

/-- Reading back a written subtree: any heap that agrees with the write's
output on the freshly written region `[d.nodes.length, out.nodes.length)`
reads the written root as exactly the written value.  In particular the
written region is self-contained: no reachable child id escapes it. -/
theorem writeTree_readback (d : Dom) (p : Option NodeId) (t : DTree) (d2 : Dom) (fuel : Nat)
    (hframe : ∀ j, d.nodes.length ≤ j → j < (writeTree d p t).1.nodes.length →
      d2.getNode j = (writeTree d p t).1.getNode j)
    (hfuel : treeSize t ≤ fuel) :
    readTree d2 fuel (writeTree d p t).2 = some t := by
  cases t with
  | mk nd cs =>
    rcases hw : writeForest ⟨d.nodes ++ [freshFromData nd p]⟩ (some d.nodes.length) cs
      with ⟨dw, cids⟩
    have hwt : writeTree d p (.mk nd cs)
        = (dw.modifyNode d.nodes.length (fun x => { x with children := cids }), d.nodes.length) := by
      rw [writeTree, hw]
    rw [hwt] at hframe
    rw [hwt]
    obtain ⟨f1, rfl⟩ : ∃ f1, fuel = f1 + 1 := by
      cases fuel with
      | zero => exact absurd hfuel (by simp [treeSize])
      | succ f1 => exact ⟨f1, rfl⟩
    have hdwlen : dw.nodes.length = d.nodes.length + 1 + forestSize cs := by
      have h := writeForest_length ⟨d.nodes ++ [freshFromData nd p]⟩ (some d.nodes.length) cs
      rw [hw] at h
      simpa using h
    have hroot1 : dw.getNode d.nodes.length = some (freshFromData nd p) := by
      have h := writeForest_getNode_lo ⟨d.nodes ++ [freshFromData nd p]⟩ (some d.nodes.length)
        cs d.nodes.length (by simp)
      rw [hw] at h
      rw [h]
      unfold Dom.getNode
      exact List.get?_concat_length d.nodes (freshFromData nd p)
    have hrootfin : (dw.modifyNode d.nodes.length
        (fun x => { x with children := cids })).getNode d.nodes.length
        = some { freshFromData nd p with children := cids } :=
      getNode_modifyNode_self dw d.nodes.length _ _ hroot1
    have hroot2 : d2.getNode d.nodes.length
        = some { freshFromData nd p with children := cids } := by
      rw [hframe d.nodes.length (Nat.le_refl _) (by simp [modifyNode_length]; omega)]
      exact hrootfin
    rw [readTree_succ, hroot2]
    have hwf1 : (writeForest ⟨d.nodes ++ [freshFromData nd p]⟩ (some d.nodes.length) cs).1 = dw := by
      rw [hw]
    have hwf2 : (writeForest ⟨d.nodes ++ [freshFromData nd p]⟩ (some d.nodes.length) cs).2 = cids := by
      rw [hw]
    have hfor : readForest d2 f1 cids = some cs := by
      have hfr : ∀ j, (⟨d.nodes ++ [freshFromData nd p]⟩ : Dom).nodes.length ≤ j →
          j < (writeForest ⟨d.nodes ++ [freshFromData nd p]⟩ (some d.nodes.length) cs).1.nodes.length →
          d2.getNode j
            = (writeForest ⟨d.nodes ++ [freshFromData nd p]⟩ (some d.nodes.length) cs).1.getNode j := by
        intro j hj1 hj2
        rw [hwf1]
        rw [hwf1] at hj2
        simp only [List.length_append, List.length_cons, List.length_nil] at hj1
        have hjroot : j ≠ d.nodes.length := by omega
        have hmod := hframe j (by omega) (by simp only [modifyNode_length]; omega)
        simp only at hmod
        rw [hmod, getNode_modifyNode_ne _ _ _ _ hjroot]
      have hfu : forestSize cs ≤ f1 := by
        simp only [treeSize] at hfuel
        omega
      have h := writeForest_readback ⟨d.nodes ++ [freshFromData nd p]⟩ (some d.nodes.length)
        cs d2 f1 hfr hfu
      rw [hwf2] at h
      exact h
    simp [hfor, freshFromData]

theorem writeForest_readback (d : Dom) (p : Option NodeId) (ts : List DTree) (d2 : Dom) (fuel : Nat)
    (hframe : ∀ j, d.nodes.length ≤ j → j < (writeForest d p ts).1.nodes.length →
      d2.getNode j = (writeForest d p ts).1.getNode j)
    (hfuel : forestSize ts ≤ fuel) :
    readForest d2 fuel (writeForest d p ts).2 = some ts := by
  cases ts with
  | nil =>
    rw [writeForest]
    exact readForest_nil d2 fuel
  | cons t ts =>
    rcases h1 : writeTree d p t with ⟨d1, r⟩
    rcases h2 : writeForest d1 p ts with ⟨dr, rs⟩
    have hwf : writeForest d p (t :: ts) = (dr, r :: rs) := by
      rw [writeForest]
      simp only [h1, h2]
    rw [hwf] at hframe
    simp only at hframe
    rw [hwf]
    simp only
    have hd1len : d1.nodes.length = d.nodes.length + treeSize t := by
      have h := writeTree_length d p t
      rw [h1] at h
      simpa using h
    have hdrlen : dr.nodes.length = d1.nodes.length + forestSize ts := by
      have h := writeForest_length d1 p ts
      rw [h2] at h
      simpa using h
    have hdr_lo : ∀ j, j < d1.nodes.length → dr.getNode j = d1.getNode j := by
      intro j hj
      have h := writeForest_getNode_lo d1 p ts j hj
      rw [h2] at h
      exact h
    have ht1 : (writeTree d p t).1 = d1 := by rw [h1]
    have ht2 : (writeTree d p t).2 = r := by rw [h1]
    have hwf1 : (writeForest d1 p ts).1 = dr := by rw [h2]
    have hwf2 : (writeForest d1 p ts).2 = rs := by rw [h2]
    have hrt : readTree d2 fuel r = some t := by
      have hfr : ∀ j, d.nodes.length ≤ j → j < (writeTree d p t).1.nodes.length →
          d2.getNode j = (writeTree d p t).1.getNode j := by
        intro j hj1 hj2
        rw [ht1]
        rw [ht1] at hj2
        have hmod := hframe j hj1 (by omega)
        rw [hmod]
        exact hdr_lo j hj2
      have hfu : treeSize t ≤ fuel := by
        simp only [forestSize] at hfuel
        omega
      have h := writeTree_readback d p t d2 fuel hfr hfu
      rw [ht2] at h
      exact h
    have hrf : readForest d2 fuel rs = some ts := by
      have hfr : ∀ j, d1.nodes.length ≤ j → j < (writeForest d1 p ts).1.nodes.length →
          d2.getNode j = (writeForest d1 p ts).1.getNode j := by
        intro j hj1 hj2
        rw [hwf1]
        rw [hwf1] at hj2
        exact hframe j (by omega) (by omega)
      have hfu : forestSize ts ≤ fuel := by
        simp only [forestSize] at hfuel
        omega
      have h := writeForest_readback d1 p ts d2 fuel hfr hfu
      rw [hwf2] at h
      exact h
    rw [readForest_cons, hrt, hrf]

end

/-- C4: with a node `n` on top of the stack whose subtree reads as the value
`t`, executing `saveTemplate(id)` stores a deep clone of `n`: the clone is
written entirely into fresh heap cells (the template root is the old heap
size, and no pre-existing node is modified), and the stored prototype reads
back as exactly `t`.  Moreover, for any later state `s3` whose heap still
agrees with the post-save heap on the template's own cells — mutations to
the live nodes saved from, to pushed clones, or any allocations all qualify,
since they touch only cells outside the template region — `pushTemplate(id)`
pushes a fresh deep clone of the stored prototype: the pushed root is again
the current heap size (referentially distinct from the template and from
everything live), it reads back as exactly the originally saved `t`, and the
push modifies no pre-existing cell (in particular it leaves the template
itself intact, so repeated `pushTemplate(id)` keeps reproducing `t`). -/
theorem c4_template_clone_isolation (s : St) (n : NodeId) (t : DTree) (id : Nat)
    (htop : topRef s = some n)
    (hread : readTree s.dom (s.dom.nodes.length + 1) n = some t) :
    opSaveTemplate ⟨[], [id]⟩ s 0 =
      .ok ({ s with
             dom := (writeTree s.dom none t).1,
             templates := mapSet s.templates id (writeTree s.dom none t).2 }, 1) ∧
    (writeTree s.dom none t).2 = s.dom.nodes.length ∧
    (∀ j, j < s.dom.nodes.length → (writeTree s.dom none t).1.getNode j = s.dom.getNode j) ∧
    (∀ fuel, treeSize t ≤ fuel →
      readTree (writeTree s.dom none t).1 fuel (writeTree s.dom none t).2 = some t) ∧
    (∀ s3 : St,
      (∀ j, s.dom.nodes.length ≤ j → j < (writeTree s.dom none t).1.nodes.length →
        s3.dom.getNode j = (writeTree s.dom none t).1.getNode j) →
      (writeTree s.dom none t).1.nodes.length ≤ s3.dom.nodes.length →
      mapGet s3.templates id = some (writeTree s.dom none t).2 →
      opPushTemplate ⟨[], [id]⟩ s3 0 =
        .ok ({ s3 with
               dom := (writeTree s3.dom none t).1,
               stack := s3.stack ++ [some (writeTree s3.dom none t).2] }, 1) ∧
      (writeTree s3.dom none t).2 = s3.dom.nodes.length ∧
      (∀ fuel, treeSize t ≤ fuel →
        readTree (writeTree s3.dom none t).1 fuel (writeTree s3.dom none t).2 = some t) ∧
      (∀ j, j < s3.dom.nodes.length → (writeTree s3.dom none t).1.getNode j = s3.dom.getNode j)) := by
  have hsz : (writeTree s.dom none t).1.nodes.length = s.dom.nodes.length + treeSize t :=
    writeTree_length s.dom none t
  refine ⟨?_, writeTree_root s.dom none t, fun j hj => writeTree_getNode_lo s.dom none t j hj,
    fun fuel hf => writeTree_readback s.dom none t _ fuel (fun j _ _ => rfl) hf, ?_⟩
  · simp [opSaveTemplate, fetch32, htop, derefNode, cloneNodeDeep, hread, bind, Except.bind]
  · intro s3 hagree hlen htmpl
    have hreads3 : readTree s3.dom (s3.dom.nodes.length + 1) (writeTree s.dom none t).2
        = some t := by
      refine writeTree_readback s.dom none t s3.dom _ hagree ?_
      omega
    refine ⟨?_, writeTree_root s3.dom none t,
      fun fuel hf => writeTree_readback s3.dom none t _ fuel (fun j _ _ => rfl) hf,
      fun j hj => writeTree_getNode_lo s3.dom none t j hj⟩
    simp [opPushTemplate, fetch32, htmpl, cloneNodeDeep, hreads3, bind, Except.bind]

/-- Fixture for C4: the spec's template scenario `<ul><li>a</li></ul>`:
node 1 is the `<ul>` (on top of the stack), node 2 the `<li>`, node 3 the
text node "a". -/
def c4St : St :=
  { container := 0, ranges := [], stack := [some 1], strings := [], temporaries := []
  , templates := []
  , dom := ⟨[{ mkElement "div" with children := [1] },
             { mkElement "ul" with parent := some 0, children := [2] },
             { mkElement "li" with parent := some 1, children := [3] },
             { mkTextNode "a" with parent := some 2 }]⟩ }

/-- The subtree value of the `<ul>` in `c4St`. -/
def c4Tree : DTree :=
  .mk { tag := "ul", isText := false, text := "", attrs := [], className := "" }
    [.mk { tag := "li", isText := false, text := "", attrs := [], className := "" }
      [.mk { tag := "", isText := true, text := "a", attrs := [], className := "" } []]]

/-- C4 witness: save the `<ul>` subtree of `c4St` as template 5; the clone
is fresh, reads back as `c4Tree`, and a later `pushTemplate(5)` from the
post-save state pushes another fresh copy reading back as `c4Tree`. -/
theorem c4_template_clone_isolation_witness :
    opSaveTemplate ⟨[], [5]⟩ c4St 0 =
      .ok ({ c4St with
             dom := (writeTree c4St.dom none c4Tree).1,
             templates := mapSet c4St.templates 5 (writeTree c4St.dom none c4Tree).2 }, 1) ∧
    (writeTree c4St.dom none c4Tree).2 = c4St.dom.nodes.length ∧
    (∀ j, j < c4St.dom.nodes.length →
      (writeTree c4St.dom none c4Tree).1.getNode j = c4St.dom.getNode j) ∧
    (∀ fuel, treeSize c4Tree ≤ fuel →
      readTree (writeTree c4St.dom none c4Tree).1 fuel (writeTree c4St.dom none c4Tree).2
        = some c4Tree) ∧
    (∀ s3 : St,
      (∀ j, c4St.dom.nodes.length ≤ j → j < (writeTree c4St.dom none c4Tree).1.nodes.length →
        s3.dom.getNode j = (writeTree c4St.dom none c4Tree).1.getNode j) →
      (writeTree c4St.dom none c4Tree).1.nodes.length ≤ s3.dom.nodes.length →
      mapGet s3.templates 5 = some (writeTree c4St.dom none c4Tree).2 →
      opPushTemplate ⟨[], [5]⟩ s3 0 =
        .ok ({ s3 with
               dom := (writeTree s3.dom none c4Tree).1,
               stack := s3.stack ++ [some (writeTree s3.dom none c4Tree).2] }, 1) ∧
      (writeTree s3.dom none c4Tree).2 = s3.dom.nodes.length ∧
      (∀ fuel, treeSize c4Tree ≤ fuel →
        readTree (writeTree s3.dom none c4Tree).1 fuel (writeTree s3.dom none c4Tree).2
          = some c4Tree) ∧
      (∀ j, j < s3.dom.nodes.length →
        (writeTree s3.dom none c4Tree).1.getNode j = s3.dom.getNode j)) :=
  c4_template_clone_isolation c4St 1 c4Tree 5 (by rfl)
    (by simp [readTree_succ, readForest_nil, readForest_cons, Dom.getNode, c4St, c4Tree,
          mkElement, mkTextNode])

/-- Fixture for C5: a `<button>` (node 1, on top of the stack) that got a
"click" listener via `newEventListener` with payloads `(7, 8)`; the string
"click" is cached at id 9. -/
def c5St : St :=
  { container := 0, ranges := [], stack := [some 1], strings := [(9, "click")]
  , temporaries := [], templates := []
  , dom := ⟨[{ mkElement "div" with children := [1] },
             { mkElement "button" with
               parent := some 0, listeners := ["click"], payloads := [("click", (7, 8))] }]⟩ }

/-- C5: for an element `el` that already has the shared handler registered
for event type `t` (via `newEventListener`) with stored payloads `(a, b)`,
executing `updateEventListener(t, a2, b2)` with `el` on top produces exactly
the state in which only `el`'s stored payload pair for `t` is overwritten —
the new state is literally `s` with `el.payloads[t] := (a2, b2)`, so the
handler registrations (`listeners`) are untouched (no `addEventListener` or
`removeEventListener` is issued) and every payload pair of another event
type is unchanged — and a subsequent event of type `t` delivered to `el`
(which is still registered) invokes the trampoline as
`trampoline(event, a2, b2)`. -/
theorem c5_update_event_listener (s : St) (el : NodeId) (x : DomNode)
    (tid a2 b2 a b : Nat) (t : String)
    (htop : topRef s = some el)
    (hx : s.dom.getNode el = some x)
    (ht : mapGet s.strings tid = some t)
    (hreg : t ∈ x.listeners)
    (_hpay : mapGet x.payloads t = some (a, b)) :
    ∃ d, opUpdateEventListener ⟨[], [tid, a2, b2]⟩ s 0 = .ok ({ s with dom := d }, 3) ∧
      d = s.dom.modifyNode el (fun y => { y with payloads := mapSet y.payloads t (a2, b2) }) ∧
      listenersOf d el = x.listeners ∧
      (∀ t2, t2 ≠ t → mapGet (payloadsOf d el) t2 = mapGet x.payloads t2) ∧
      t ∈ listenersOf d el ∧
      fireEvent true d el t = .ok (t, some a2, some b2) := by
  have h2 := getNode_modifyNode_self s.dom el
    (fun y => { y with payloads := mapSet y.payloads t (a2, b2) }) x hx
  refine ⟨s.dom.modifyNode el (fun y => { y with payloads := mapSet y.payloads t (a2, b2) }),
    ?_, rfl, ?_, ?_, ?_, ?_⟩
  · simp [opUpdateEventListener, fetch32, getCachedString, ht, htop, derefNode, jsStr,
      bind, Except.bind]
  · simp [listenersOf, h2]
  · intro t2 hne
    simp [payloadsOf, h2, mapGet_mapSet_ne _ _ _ _ hne]
  · simpa [listenersOf, h2] using hreg
  · simp [fireEvent, h2, mapGet_mapSet_self]

/-- C5 witness: a `<button>` registered for "click" with payloads `(7, 8)`
is updated to `(10, 11)`; a click then reaches the trampoline as
`(event, 10, 11)`. -/
theorem c5_update_event_listener_witness :
    ∃ d, opUpdateEventListener ⟨[], [9, 10, 11]⟩ c5St 0 = .ok ({ c5St with dom := d }, 3) ∧
      d = c5St.dom.modifyNode 1 (fun y => { y with payloads := mapSet y.payloads "click" (10, 11) }) ∧
      listenersOf d 1 = ["click"] ∧
      (∀ t2, t2 ≠ "click" → mapGet (payloadsOf d 1) t2 = mapGet [("click", (7, 8))] t2) ∧
      "click" ∈ listenersOf d 1 ∧
      fireEvent true d 1 "click" = .ok ("click", some 10, some 11) :=
  c5_update_event_listener c5St 1
    { mkElement "button" with parent := some 0, listeners := ["click"], payloads := [("click", (7, 8))] }
    9 10 11 7 8 "click" (by rfl) (by rfl) (by rfl) (by decide) (by rfl)

/-! ## Claim C6 -/

/-- C6 counterexample: an opcode whose string-id operand is absent from the
string cache does not fail fast.  With an empty cache, `createElement(5)`
completes normally: `getCachedString` returns `undefined` without any check,
and `document.createElement(undefined)` creates an element whose tag is the
string "undefined". -/
theorem c6_unknown_string_id_counterexample :
    opCreateElement ⟨[], [5]⟩ exSt 0 =
      .ok ({ exSt with
             dom := ⟨exDom.nodes ++ [mkElement "undefined"]⟩,
             stack := [some 4] }, 1) := by
  rfl

/-- C6 (amended): for every opcode of the main table that takes a string-id
operand — `setAttribute`, `removeAttribute`, `createElement`,
`newEventListener`, `updateEventListener`, `removeEventListener`,
`createElementNS`, `setClass` — executing it with an id (or ids) not present
in the string cache does not fail fast with an error: `getCachedString`
returns the absent value (`undefined`) without any check, the opcode
completes normally, and the undefined value flows into the downstream DOM
call as the string "undefined" (`createElement`/`createElementNS` push an
element whose tag is "undefined", `setAttribute` writes an attribute named
"undefined", `setClass` assigns the class name "undefined",
`newEventListener` registers the shared handler for the event type
"undefined").  This is the spec's §4.5 policy: unknown-id lookups may return
an undefined string and let downstream DOM calls fail naturally. -/
theorem c6_unknown_string_id_amended (s : St) (id id2 : Nat) (n : NodeId) (x : DomNode)
    (h : mapGet s.strings id = none)
    (h2 : mapGet s.strings id2 = none)
    (htop : topRef s = some n)
    (hx : s.dom.getNode n = some x)
    (helem : x.data.isText = false) :
    opCreateElement ⟨[], [id]⟩ s 0 =
      .ok ({ s with
             dom := ⟨s.dom.nodes ++ [mkElement "undefined"]⟩,
             stack := s.stack ++ [some s.dom.nodes.length] }, 1) ∧
    opCreateElementNS ⟨[], [id, id2]⟩ s 0 =
      .ok ({ s with
             dom := ⟨s.dom.nodes ++ [mkElement "undefined"]⟩,
             stack := s.stack ++ [some s.dom.nodes.length] }, 2) ∧
    (∃ d, opSetAttribute ⟨[], [id, id2]⟩ s 0 = .ok ({ s with dom := d }, 2) ∧
       attrOf d n "undefined" = some "undefined") ∧
    (∃ d, opRemoveAttribute ⟨[], [id]⟩ s 0 = .ok ({ s with dom := d }, 1)) ∧
    (∃ d, opSetClass ⟨[], [id]⟩ s 0 = .ok ({ s with dom := d }, 1) ∧
       (d.getNode n).map (fun y => y.data.className) = some "undefined") ∧
    (∀ a b, ∃ d, opNewEventListener ⟨[], [id, a, b]⟩ s 0 = .ok ({ s with dom := d }, 3) ∧
       "undefined" ∈ listenersOf d n) ∧
    (∀ a b, ∃ d, opUpdateEventListener ⟨[], [id, a, b]⟩ s 0 = .ok ({ s with dom := d }, 3)) ∧
    (∃ d, opRemoveEventListener ⟨[], [id]⟩ s 0 = .ok ({ s with dom := d }, 1)) := by
  refine ⟨?_, ?_, ?_, ?_, ?_, ?_, ?_, ?_⟩
  · simp [opCreateElement, fetch32, getCachedString, h, jsStr, Dom.alloc, bind, Except.bind]
  · simp [opCreateElementNS, fetch32, getCachedString, h, h2, jsStr, Dom.alloc, bind, Except.bind]
  · refine ⟨s.dom.modifyNode n
      (fun y => { y with data := { y.data with attrs := mapSet y.data.attrs "undefined" "undefined" } }),
      ?_, ?_⟩
    · simp [opSetAttribute, fetch32, getCachedString, h, h2, htop, derefNode, hx, helem,
        jsStr, bind, Except.bind]
    · have h1 := getNode_modifyNode_self s.dom n
        (fun y => { y with data := { y.data with attrs := mapSet y.data.attrs "undefined" "undefined" } }) x hx
      simp [attrOf, h1, mapGet_mapSet_self]
  · refine ⟨s.dom.modifyNode n
      (fun y => { y with data := { y.data with attrs := mapDel y.data.attrs "undefined" } }), ?_⟩
    simp [opRemoveAttribute, fetch32, getCachedString, h, htop, derefNode, hx, helem,
      jsStr, bind, Except.bind]
  · refine ⟨s.dom.modifyNode n
      (fun y => { y with data := { y.data with className := "undefined" } }), ?_, ?_⟩
    · simp [opSetClass, fetch32, getCachedString, h, htop, derefNode, jsStr, bind, Except.bind]
    · have h1 := getNode_modifyNode_self s.dom n
        (fun y => { y with data := { y.data with className := "undefined" } }) x hx
      simp [h1]
  · intro a b
    refine ⟨(s.dom.modifyNode n (fun y =>
        { y with listeners := if "undefined" ∈ y.listeners then y.listeners
                              else y.listeners ++ ["undefined"] })).modifyNode n
        (fun y => { y with payloads := mapSet y.payloads "undefined" (a, b) }), ?_, ?_⟩
    · simp [opNewEventListener, fetch32, getCachedString, h, htop, derefNode, jsStr,
        bind, Except.bind]
    · have h1 := getNode_modifyNode_self s.dom n (fun y =>
        { y with listeners := if "undefined" ∈ y.listeners then y.listeners
                              else y.listeners ++ ["undefined"] }) x hx
      have h2b := getNode_modifyNode_self _ n
        (fun y => { y with payloads := mapSet y.payloads "undefined" (a, b) }) _ h1
      simp only [listenersOf, h2b]
      by_cases hm : "undefined" ∈ x.listeners <;> simp [hm]
  · intro a b
    refine ⟨s.dom.modifyNode n
      (fun y => { y with payloads := mapSet y.payloads "undefined" (a, b) }), ?_⟩
    simp [opUpdateEventListener, fetch32, getCachedString, h, htop, derefNode, jsStr,
      bind, Except.bind]
  · refine ⟨s.dom.modifyNode n
      (fun y => { y with listeners := y.listeners.erase "undefined" }), ?_⟩
    simp [opRemoveEventListener, fetch32, getCachedString, h, htop, derefNode, jsStr,
      bind, Except.bind]

/-- Fixture for C6: `exSt` with the element node 1 on top of the stack and a
cache that maps only id 3 (so ids 7 and 8 are unknown). -/
def c6St : St :=
  { exSt with strings := [(3, "div")], stack := [some 1] }

/-- C6 witness: the amended theorem at `c6St` with the unknown ids 7 and 8,
covering every string-id opcode of the main table. -/
theorem c6_unknown_string_id_witness :
    opCreateElement ⟨[], [7]⟩ c6St 0 =
      .ok ({ c6St with
             dom := ⟨c6St.dom.nodes ++ [mkElement "undefined"]⟩,
             stack := c6St.stack ++ [some c6St.dom.nodes.length] }, 1) ∧
    opCreateElementNS ⟨[], [7, 8]⟩ c6St 0 =
      .ok ({ c6St with
             dom := ⟨c6St.dom.nodes ++ [mkElement "undefined"]⟩,
             stack := c6St.stack ++ [some c6St.dom.nodes.length] }, 2) ∧
    (∃ d, opSetAttribute ⟨[], [7, 8]⟩ c6St 0 = .ok ({ c6St with dom := d }, 2) ∧
       attrOf d 1 "undefined" = some "undefined") ∧
    (∃ d, opRemoveAttribute ⟨[], [7]⟩ c6St 0 = .ok ({ c6St with dom := d }, 1)) ∧
    (∃ d, opSetClass ⟨[], [7]⟩ c6St 0 = .ok ({ c6St with dom := d }, 1) ∧
       (d.getNode 1).map (fun y => y.data.className) = some "undefined") ∧
    (∀ a b, ∃ d, opNewEventListener ⟨[], [7, a, b]⟩ c6St 0 = .ok ({ c6St with dom := d }, 3) ∧
       "undefined" ∈ listenersOf d 1) ∧
    (∀ a b, ∃ d, opUpdateEventListener ⟨[], [7, a, b]⟩ c6St 0 = .ok ({ c6St with dom := d }, 3)) ∧
    (∃ d, opRemoveEventListener ⟨[], [7]⟩ c6St 0 = .ok ({ c6St with dom := d }, 1)) :=
  c6_unknown_string_id_amended c6St 7 8 1 { mkElement "a" with parent := some 0 }
    (by decide) (by decide) (by rfl) (by rfl) (by rfl)

/-! ## Claim C9 -/

theorem removeChain_none (d : Dom) (fuel : Nat) : removeChain d fuel none = d := by
  cases fuel <;> rfl

theorem removeChain_cons (d : Dom) (fuel : Nat) (c : NodeId) :
    removeChain d (fuel + 1) (some c) = removeChain (d.removeNode c) fuel (d.nextSibling c) := rfl

theorem dropWhile_ne_middle (c : NodeId) (rest : List NodeId) :
    ∀ (pre : List NodeId), c ∉ pre →
    (pre ++ c :: rest).dropWhile (fun x => x ≠ c) = c :: rest := by
  intro pre
  induction pre with
  | nil =>
    intro _
    simp [List.dropWhile_cons]
  | cons a pre ih =>
    intro h
    have ha : a ≠ c := fun hh => h (by simp [hh])
    have h2 : c ∉ pre := fun hh => h (by simp [hh])
    simp only [List.cons_append, List.dropWhile_cons, decide_eq_true ha, if_pos]
    simpa using ih h2

/-- If `p`'s children are `pre ++ c :: rest` with `c` not among `pre`, then
`c.nextSibling` is the head of `rest`. -/
theorem nextSibling_eq_head (d : Dom) (p c : NodeId) (pnode : DomNode)
    (pre rest : List NodeId)
    (hp : d.getNode p = some pnode)
    (hch : pnode.children = pre ++ c :: rest)
    (hcp : d.parentOf c = some p)
    (hpre : c ∉ pre) :
    d.nextSibling c = rest.head? := by
  unfold Dom.nextSibling Dom.childrenOf
  simp only [hcp, hp, hch, dropWhile_ne_middle c rest pre hpre]
  cases rest <;> rfl

theorem parentOf_congr (d1 d2 : Dom) (c : NodeId)
    (h : d2.getNode c = d1.getNode c) : d2.parentOf c = d1.parentOf c := by
  unfold Dom.parentOf
  rw [h]

/-- Effect of `removeNode` on a child `c` of `p`. -/
theorem removeNode_effect (d : Dom) (p c : NodeId) (pnode xc : DomNode)
    (hp : d.getNode p = some pnode)
    (hxc : d.getNode c = some xc)
    (hcp : xc.parent = some p)
    (hne : c ≠ p) :
    (d.removeNode c).getNode p = some { pnode with children := pnode.children.erase c } ∧
    (d.removeNode c).getNode c = some { xc with parent := none } ∧
    (∀ q, q ≠ p → q ≠ c → (d.removeNode c).getNode q = d.getNode q) := by
  have hcp2 : d.parentOf c = some p := by
    unfold Dom.parentOf
    simp only [hxc, hcp]
  unfold Dom.removeNode
  rw [hcp2]
  have h1 := getNode_modifyNode_self d p (fun x => { x with children := x.children.erase c }) pnode hp
  refine ⟨?_, ?_, ?_⟩
  · rw [getNode_modifyNode_ne _ c p _ (fun hh => hne hh.symm)]
    exact h1
  · have h2 : (d.modifyNode p (fun x => { x with children := x.children.erase c })).getNode c
        = some xc := by
      rw [getNode_modifyNode_ne _ p c _ hne]
      exact hxc
    exact getNode_modifyNode_self _ c (fun x => { x with parent := none }) xc h2
  · intro q hqp hqc
    rw [getNode_modifyNode_ne _ c q _ hqc, getNode_modifyNode_ne _ p q _ hqp]

/-- The `while (sibling)` loop of opcode 1: starting from the head of the
suffix `rest` of `p`'s children, it detaches exactly the members of `rest`,
leaving the prefix `pre` in place and every other node untouched. -/
theorem removeChain_spec (rest : List NodeId) :
    ∀ (d : Dom) (p : NodeId) (pnode : DomNode) (pre : List NodeId) (fuel : Nat),
    d.getNode p = some pnode →
    pnode.children = pre ++ rest →
    (pre ++ rest).Nodup →
    p ∉ pre ++ rest →
    (∀ c ∈ rest, ∃ x, d.getNode c = some x ∧ x.parent = some p) →
    rest.length ≤ fuel →
    (removeChain d fuel rest.head?).getNode p = some { pnode with children := pre } ∧
    (∀ c ∈ rest, (removeChain d fuel rest.head?).parentOf c = none) ∧
    (∀ q, q ≠ p → q ∉ rest → (removeChain d fuel rest.head?).getNode q = d.getNode q) := by
  induction rest with
  | nil =>
    intro d p pnode pre fuel hp hch hnd hpp hpar hf
    rw [List.head?_nil, removeChain_none]
    refine ⟨?_, by simp, fun q _ _ => rfl⟩
    rw [hp]
    have : pnode.children = pre := by simpa using hch
    rw [← this]
  | cons c rest ih =>
    intro d p pnode pre fuel hp hch hnd hpp hpar hf
    obtain ⟨fuel, rfl⟩ : ∃ f2, fuel = f2 + 1 := by
      cases fuel with
      | zero => exact absurd hf (by simp)
      | succ f2 => exact ⟨f2, rfl⟩
    obtain ⟨xc, hxc, hxcp⟩ := hpar c (by simp)
    have hcp : d.parentOf c = some p := by
      unfold Dom.parentOf
      simp only [hxc, hxcp]
    have hcpre : c ∉ pre := by
      have := List.disjoint_of_nodup_append hnd
      exact fun hh => this hh (by simp)
    have hcrest : c ∉ rest := by
      have := (List.nodup_append.mp hnd).2.1
      simp only [List.nodup_cons] at this
      exact this.1
    have hcne : c ≠ p := fun hh => hpp (by simp [← hh])
    have hnext : d.nextSibling c = rest.head? :=
      nextSibling_eq_head d p c pnode pre rest hp hch hcp hcpre
    rw [List.head?_cons, removeChain_cons, hnext]
    have heff := removeNode_effect d p c pnode xc hp hxc hxcp hcne
    have herase : pnode.children.erase c = pre ++ rest := by
      rw [hch, List.erase_append_right _ hcpre, List.erase_cons_head]
    have hsub : (pre ++ rest).Sublist (pre ++ c :: rest) :=
      List.Sublist.append_left (List.sublist_cons_self c rest) pre
    have hih := ih (d.removeNode c) p { pnode with children := pnode.children.erase c }
      pre fuel heff.1 (by simpa using herase) (hnd.sublist hsub)
      (fun hh => hpp (hsub.mem hh))
      (fun c2 hc2 => by
        obtain ⟨x2, hx2, hx2p⟩ := hpar c2 (by simp [hc2])
        refine ⟨x2, ?_, hx2p⟩
        rw [heff.2.2 c2 (fun hh => hpp (by rw [← hh]; simp [hc2])) (fun hh => hcrest (hh ▸ hc2))]
        exact hx2)
      (by simpa using Nat.le_of_succ_le_succ hf)
    refine ⟨?_, ?_, ?_⟩
    · have := hih.1
      simpa using this
    · intro c2 hc2
      rcases List.mem_cons.mp hc2 with h2 | h2
      · subst h2
        have hframe := hih.2.2 c2 hcne hcrest
        have : (removeChain (d.removeNode c2) fuel rest.head?).getNode c2
            = some { xc with parent := none } := by
          rw [hframe]
          exact heff.2.1
        unfold Dom.parentOf
        simp only [this]
      · exact hih.2.1 c2 h2
    · intro q hqp hq
      have hq1 : q ∉ rest := fun hh => hq (by simp [hh])
      have hq2 : q ≠ c := fun hh => hq (by simp [hh])
      rw [hih.2.2 q hqp hq1, heff.2.2 q hqp hq2]

/-- C9: `removeSelfAndNextSiblings` pops the node `n` on top of the stack
and detaches `n` together with every later sibling from their parent `p`,
leaving the earlier siblings (`pre`) in place and untouched. -/
theorem c9_remove_self_and_next_siblings (m : Mem) (i : Nat) (s : St)
    (n p : NodeId) (pnode : DomNode) (pre post : List NodeId)
    (htop : topRef s = some n)
    (hp : s.dom.getNode p = some pnode)
    (hch : pnode.children = pre ++ n :: post)
    (hnd : (pre ++ n :: post).Nodup)
    (hpp : p ∉ pre ++ n :: post)
    (hpar : ∀ c ∈ n :: post, ∃ x, s.dom.getNode c = some x ∧ x.parent = some p) :
    ∃ d, opRemoveSelfAndNextSiblings m s i =
        .ok ({ s with stack := s.stack.dropLast, dom := d }, i) ∧
      d.getNode p = some { pnode with children := pre } ∧
      (∀ c ∈ pre, d.getNode c = s.dom.getNode c) ∧
      (∀ c ∈ n :: post, d.parentOf c = none) := by
  obtain ⟨xn, hxn, hxnp⟩ := hpar n (by simp)
  have hnp : n ≠ p := fun hh => hpp (by rw [← hh]; simp)
  have hnpost : n ∉ post := by
    have := (List.nodup_append.mp hnd).2.1
    simp only [List.nodup_cons] at this
    exact this.1
  have hnpre : n ∉ pre := by
    have := List.disjoint_of_nodup_append hnd
    exact fun hh => this hh (by simp)
  -- fuel: the distinct valid ids in `post` number at most the heap size
  have hfuel : post.length ≤ s.dom.nodes.length := by
    have hndpost : post.Nodup := by
      have := (List.nodup_append.mp hnd).2.1
      simp only [List.nodup_cons] at this
      exact this.2
    have hsubset : post.toFinset ⊆ Finset.range s.dom.nodes.length := by
      intro q hq
      simp only [List.mem_toFinset] at hq
      obtain ⟨x2, hx2, _⟩ := hpar q (by simp [hq])
      rcases List.get?_eq_some.mp hx2 with ⟨hlt, _⟩
      simpa using hlt
    calc post.length = post.toFinset.card := (List.toFinset_card_of_nodup hndpost).symm
      _ ≤ (Finset.range s.dom.nodes.length).card := Finset.card_le_card hsubset
      _ = s.dom.nodes.length := Finset.card_range _
  have hnextn : s.dom.nextSibling n = post.head? :=
    nextSibling_eq_head s.dom p n pnode pre post hp hch
      (by unfold Dom.parentOf; simp only [hxn, hxnp]) hnpre
  have hch2 : pnode.children = (pre ++ [n]) ++ post := by
    rw [hch]
    simp
  have hnd2 : ((pre ++ [n]) ++ post).Nodup := by
    have : (pre ++ [n]) ++ post = pre ++ n :: post := by simp
    rw [this]
    exact hnd
  have hpp2 : p ∉ (pre ++ [n]) ++ post := by
    have : (pre ++ [n]) ++ post = pre ++ n :: post := by simp
    rw [this]
    exact hpp
  have hchain := removeChain_spec post s.dom p pnode (pre ++ [n]) s.dom.nodes.length
    hp hch2 hnd2 hpp2 (fun c hc => hpar c (by simp [hc])) hfuel
  set dc := removeChain s.dom s.dom.nodes.length post.head? with hdc
  -- `n` untouched by the chain, so still a child of `p`
  have hgn : dc.getNode n = some xn := by
    rw [hchain.2.2 n hnp hnpost]
    exact hxn
  have heff := removeNode_effect dc p n { pnode with children := pre ++ [n] } xn
    hchain.1 hgn hxnp hnp
  have herase2 : (pre ++ [n]).erase n = pre := by
    rw [List.erase_append_right _ hnpre, List.erase_cons_head, List.append_nil]
  refine ⟨dc.removeNode n, ?_, ?_, ?_, ?_⟩
  · simp [opRemoveSelfAndNextSiblings, htop, derefNode, bind, Except.bind, hnextn, hdc]
  · have := heff.1
    simpa [herase2] using this
  · intro c hc
    have hcp : c ≠ p := fun hh => hpp (by rw [← hh]; simp [hc])
    have hcn : c ≠ n := fun hh => hnpre (hh ▸ hc)
    have hcpost : c ∉ post := by
      have hdisj := List.disjoint_of_nodup_append hnd
      exact fun hh => hdisj hc (by simp [hh])
    rw [heff.2.2 c hcp hcn, hchain.2.2 c hcp hcpost]
  · intro c hc
    rcases List.mem_cons.mp hc with h2 | h2
    · subst h2
      unfold Dom.parentOf
      simp only [heff.2.1]
    · have hcp : c ≠ p := fun hh => hpp (by rw [← hh]; simp [h2])
      have hcn : c ≠ n := fun hh => hnpost (hh ▸ h2)
      rw [parentOf_congr dc _ c (heff.2.2 c hcp hcn)]
      exact hchain.2.1 c h2

/-- C9 witness: the spec's literal scenario — container
`<root><a/><b/><c/></root>` (`exDom`), first child pushed, one
`removeSelfAndNextSiblings`: the root is left with no children and all three
children are detached. -/
theorem c9_remove_self_and_next_siblings_witness :
    ∃ d, opRemoveSelfAndNextSiblings ⟨[], []⟩ { exSt with stack := [some 1] } 0 =
        .ok ({ exSt with stack := [], dom := d }, 0) ∧
      d.getNode 0 = some { { mkElement "div" with children := [1, 2, 3] } with children := [] } ∧
      (∀ c ∈ ([] : List NodeId), d.getNode c = exDom.getNode c) ∧
      (∀ c ∈ [1, 2, 3], d.parentOf c = none) :=
  c9_remove_self_and_next_siblings ⟨[], []⟩ 0 { exSt with stack := [some 1] } 1 0
    { mkElement "div" with children := [1, 2, 3] } [] [2, 3]
    (by rfl) (by rfl) (by rfl) (by decide) (by decide)
    (by intro c hc; fin_cases hc
        · exact ⟨{ mkElement "a" with parent := some 0 }, rfl, rfl⟩
        · exact ⟨{ mkElement "b" with parent := some 0 }, rfl, rfl⟩
        · exact ⟨{ mkElement "c" with parent := some 0 }, rfl, rfl⟩)

/-! ## Claim C8 -/

/-- C8 counterexample: the two stacks do not have equal length at every
point during a commit.  Immediately after the initial push that
`applyChanges` performs (`this.stack.push(this.container.firstChild)`, with
no paired push onto `siblingIndices`), the traversal stack has one entry and
the sibling-index side-stack has none. -/
theorem c8_stack_lengths_counterexample :
    ({ exSib with stack := exSib.stack ++ [Sib.sContainerFirstChild exSib] } : Sib.SSt).stack.length = 1 ∧
    ({ exSib with stack := exSib.stack ++ [Sib.sContainerFirstChild exSib] } : Sib.SSt).siblingIndices.length = 0 := by
  decide

/-- C8 (amended): in the sibling-index variant the two stacks are *not*
equal in length: the initial push of `container.firstChild` goes onto
`stack` only (no sibling index is recorded), so during a commit `stack`
carries one more entry than `siblingIndices`.  Every opcode handler
preserves this off-by-one relation — each pushes or pops both stacks in
pairs — provided at least two entries sit above the initial one (a pop that
reaches the bottom entries shrinks only `stack`, because popping the empty
`siblingIndices` array is a no-op).  The end-of-frame clearing empties
`stack` and `ranges` but leaves `siblingIndices` untouched. -/
theorem c8_stack_lengths_amended :
    (∀ f ∈ Sib.SOP_TABLE, ∀ (m : Mem) (s s2 : Sib.SSt) (i i2 : Nat),
      s.stack.length = s.siblingIndices.length + 1 →
      3 ≤ s.stack.length →
      f m s i = .ok (s2, i2) →
      s2.stack.length = s2.siblingIndices.length + 1) ∧
    (∀ (m : Mem) (s s2 : Sib.SSt), s.ranges ≠ [] →
      Sib.sRunRanges m s.ranges { s with stack := s.stack ++ [Sib.sContainerFirstChild s] } = .ok s2 →
      ∃ sf, Sib.sApplyChanges m s = .ok sf ∧ sf.stack = [] ∧ sf.ranges = [] ∧
        sf.siblingIndices = s2.siblingIndices) := by
  constructor
  · intro f hf m s s2 i i2 hP hd h
    have hsib : 2 ≤ s.siblingIndices.length := by omega
    fin_cases hf <;>
      (simp only [Sib.sOpSetText, Sib.sOpRemoveSelfAndNextSiblings, Sib.sOpReplaceWith,
        Sib.sOpSetAttribute, Sib.sOpRemoveAttribute, Sib.sOpPushFirstChild,
        Sib.sOpPopPushNextSibling, Sib.sOpPop, Sib.sOpAppendChild, Sib.sOpCreateTextNode,
        Sib.sOpCreateElement, Sib.sOpNewEventListener, Sib.sOpUpdateEventListener,
        Sib.sOpRemoveEventListener, Sib.sOpAddCachedString, Sib.sOpDropCachedString,
        Sib.sOpCreateElementNS, Sib.sOpPushChild, Sib.sOpPopPushSibling,
        Sib.sDeref, Sib.sFetch32, Sib.push, Sib.pop, Sib.popVal, Sib.top,
        Sib.topSiblingIndex, bind, Except.bind] at h) <;>
      (repeat' split at h) <;>
      (try cases h) <;>
      simp_all [Sib.push, Sib.pop, List.length_dropLast, List.length_append] <;>
      omega
  · intro m s s2 hne hok
    have hlen : ¬ s.ranges.length = 0 := by
      simpa [List.length_eq_zero] using hne
    refine ⟨{ s2 with ranges := [], stack := [] }, ?_, rfl, rfl, rfl⟩
    unfold Sib.sApplyChanges
    rw [if_neg hlen]
    simp only [hok]

/-- C8 witness: a handler from the table (`pop`) applied at depth three
preserves the off-by-one relation, and a balanced concrete commit
(`pushFirstChild` then `pop`) resets `stack` and `ranges` while leaving
`siblingIndices` exactly as the opcodes left it (here empty). -/
theorem c8_stack_lengths_witness :
    ({ exSib with stack := [some 1, some 2], siblingIndices := [some 0] } : Sib.SSt).stack.length
      = ({ exSib with stack := [some 1, some 2], siblingIndices := [some 0] } : Sib.SSt).siblingIndices.length + 1 ∧
    ∃ sf, Sib.sApplyChanges ⟨[], [5, 7]⟩ { exSib with ranges := [0, 8] } = .ok sf ∧
      sf.stack = [] ∧ sf.ranges = [] ∧ sf.siblingIndices = [] :=
  ⟨c8_stack_lengths_amended.1 Sib.sOpPop (by simp [Sib.SOP_TABLE]) ⟨[], []⟩
      { exSib with stack := [some 1, some 2, some 3], siblingIndices := [some 0, some 1] }
      { exSib with stack := [some 1, some 2], siblingIndices := [some 0] } 0 0
      (by decide) (by decide) (by rfl),
   c8_stack_lengths_amended.2 ⟨[], [5, 7]⟩ { exSib with ranges := [0, 8] }
      { exSib with ranges := [0, 8], stack := [some 1] } (by decide) (by rfl)⟩

/-! ## Claims C7 and C10 -/

/-- C7: after a successful `unmount()`, every further public call on the
instance throws — `addChangeListRange`, `applyChanges` and a second
`unmount` all fail on the nulled-out properties — and the trampoline object
is left unmounted (`w2.tramp = some false`), so the shared event handler,
whenever an event fires it afterwards, throws the explicit used-after-unmount
error instead of invoking the trampoline. -/
theorem c7_unmount_poisons_instance (w w2 : World) (h : wUnmount w = .ok w2) :
    (∀ a b, wAddChangeListRange w2 a b =
      .error ("TypeError: Cannot read properties of null", w2)) ∧
    (∀ m, wApplyChanges w2 m =
      .error ("TypeError: Cannot read properties of null", w2)) ∧
    wUnmount w2 = .error ("TypeError: Cannot set properties of null", w2) ∧
    w2.tramp = some false ∧
    (∀ (d : Dom) (n : NodeId) (t : String),
      fireEvent (w2.tramp.getD true) d n t =
        .error "invocation of listener after VDOM has been unmounted") := by
  have hw2 : w2 = { tramp := some false, inst := none } := by
    unfold wUnmount at h
    cases hinst : w.inst with
    | none => rw [hinst] at h; exact absurd h (by simp)
    | some s =>
      rw [hinst] at h
      cases htr : w.tramp with
      | none => rw [htr] at h; exact absurd h (by simp)
      | some b => rw [htr] at h; simpa using h.symm
  subst hw2
  refine ⟨fun a b => rfl, fun m => rfl, rfl, rfl, fun d n t => rfl⟩

/-- C7 witness: a mounted world over `exSt` is unmounted and every public
call on the result fails. -/
theorem c7_unmount_poisons_instance_witness :
    wUnmount ⟨some true, some exSt⟩ = .ok ⟨some false, none⟩ ∧
    wAddChangeListRange ⟨some false, none⟩ 0 4 =
      .error ("TypeError: Cannot read properties of null", ⟨some false, none⟩) ∧
    wApplyChanges ⟨some false, none⟩ ⟨[], [7]⟩ =
      .error ("TypeError: Cannot read properties of null", ⟨some false, none⟩) ∧
    wUnmount ⟨some false, none⟩ =
      .error ("TypeError: Cannot set properties of null", ⟨some false, none⟩) ∧
    fireEvent ((some false).getD true) exDom 1 "click" =
      .error "invocation of listener after VDOM has been unmounted" := by
  have h := c7_unmount_poisons_instance ⟨some true, some exSt⟩ ⟨some false, none⟩ (by rfl)
  exact ⟨by rfl, h.1 0 4, h.2.1 ⟨[], [7]⟩, h.2.2.1, h.2.2.2.2 exDom 1 "click"⟩

/-- C10: calling `unmount()` before `initEventsTrampoline` was ever called
throws a `TypeError` on the very first statement
(`this.trampoline.mounted = false` with `this.trampoline` still null from
the constructor); the throw happens before any property is nulled, so the
instance state is unchanged (the error carries the world as it was) and the
other public methods keep working: `addChangeListRange` still appends to
`ranges`, and `applyChanges` still runs (here: returns immediately when no
range is pending). -/
theorem c10_unmount_before_init_throws (w : World) (s : St)
    (hlive : w.inst = some s) (htr : w.tramp = none) :
    wUnmount w = .error ("TypeError: Cannot set properties of null", w) ∧
    (∀ a b, wAddChangeListRange w a b =
      .ok { w with inst := some { s with ranges := s.ranges ++ [a, b] } }) ∧
    (∀ m, s.ranges = [] → wApplyChanges w m = .ok w) := by
  refine ⟨?_, ?_, ?_⟩
  · unfold wUnmount
    rw [hlive, htr]
  · intro a b
    unfold wAddChangeListRange
    rw [hlive]
  · intro m hr
    unfold wApplyChanges
    rw [hlive]
    simp only [applyChanges, hr, List.length_nil, eq_self_iff_true, if_true]
    rw [← hlive]

/-- C10 witness: a never-initialized world over `exSt` (no pending ranges). -/
theorem c10_unmount_before_init_witness :
    wUnmount ⟨none, some { exSt with ranges := [] }⟩ =
      .error ("TypeError: Cannot set properties of null", ⟨none, some { exSt with ranges := [] }⟩) ∧
    wAddChangeListRange ⟨none, some { exSt with ranges := [] }⟩ 8 4 =
      .ok ⟨none, some { exSt with ranges := [8, 4] }⟩ ∧
    wApplyChanges ⟨none, some { exSt with ranges := [] }⟩ ⟨[], [7]⟩ =
      .ok ⟨none, some { exSt with ranges := [] }⟩ := by
  have h := c10_unmount_before_init_throws ⟨none, some { exSt with ranges := [] }⟩
    { exSt with ranges := [] } (by rfl) (by rfl)
  exact ⟨h.1, h.2.1 8 4, h.2.2 ⟨[], [7]⟩ (by rfl)⟩

/-! ## Claim C2 -/

/-- C2: a throw from an opcode handler propagates unchanged to the caller of
`applyChanges`, and no per-frame state is reset.  Three links of the chain:
(i) when the dispatch loop invokes a handler that throws with payload
`(e, s2)` — `s2` being the interpreter state at the moment of the throw —
the loop rethrows exactly `(e, s2)`; (ii) a throwing range makes the
`applyChanges` range loop rethrow exactly the same payload; (iii) a throwing
range loop makes `applyChanges` rethrow exactly the same payload, skipping
the reset, so `stack`, `ranges` and `temporaries` keep precisely the
contents they had at the throw. -/
theorem c2_opcode_throw_propagates :
    (∀ (m : Mem) (endIdx fuel i op : Nat) (s s2 : St) (e : String)
       (f : Mem → St → Nat → OpRes),
      i < endIdx → m.mem32.get? i = some op → OP_TABLE.get? op = some f →
      f m s (i + 1) = .error (e, s2) →
      rangeLoop m endIdx (fuel + 1) i s = .error (e, s2)) ∧
    (∀ (m : Mem) (start len : Nat) (rest : List Nat) (s s2 : St) (e : String),
      applyChangeRange m s start len = .error (e, s2) →
      runRanges m (start :: len :: rest) s = .error (e, s2)) ∧
    (∀ (m : Mem) (s s2 : St) (e : String), s.ranges ≠ [] →
      runRanges m s.ranges { s with stack := s.stack ++ [containerFirstChild s] } = .error (e, s2) →
      applyChanges m s = .error (e, s2)) := by
  refine ⟨?_, ?_, ?_⟩
  · intro m endIdx fuel i op s s2 e f hi hop hf herr
    unfold rangeLoop
    rw [if_pos hi]
    simp only [hop, hf, herr]
  · intro m start len rest s s2 e herr
    unfold runRanges
    simp only [herr]
  · intro m s s2 e hne herr
    have hlen : ¬ s.ranges.length = 0 := by
      simpa [List.length_eq_zero] using hne
    unfold applyChanges
    rw [if_neg hlen]
    simp only [herr]

/-- C2 witness: the three links applied to a concrete frame whose single
opcode range is `[removeSelfAndNextSiblings]` executed with an empty stack,
so the handler throws a `TypeError` dereferencing the popped `undefined`;
the error and the un-reset state (pending range still `[0, 4]`) surface
unchanged from `applyChanges`. -/
theorem c2_opcode_throw_witness :
    rangeLoop ⟨[], [1]⟩ 1 1 0 { exSt with stack := [] }
      = .error ("TypeError: node reference is null or undefined", { exSt with stack := [] }) ∧
    runRanges ⟨[], [1]⟩ [0, 4] { exSt with stack := [] }
      = .error ("TypeError: node reference is null or undefined", { exSt with stack := [] }) ∧
    applyChanges ⟨[], [1]⟩ { exSt with dom := ⟨[mkElement "div"]⟩ }
      = .error ("TypeError: node reference is null or undefined",
          { exSt with dom := ⟨[mkElement "div"]⟩, stack := [] }) :=
  ⟨c2_opcode_throw_propagates.1 ⟨[], [1]⟩ 1 0 0 1 { exSt with stack := [] } _ _
      opRemoveSelfAndNextSiblings (by decide) (by rfl) (by rfl) (by rfl),
   c2_opcode_throw_propagates.2.1 ⟨[], [1]⟩ 0 4 [] { exSt with stack := [] } _ _ (by rfl),
   c2_opcode_throw_propagates.2.2 ⟨[], [1]⟩ { exSt with dom := ⟨[mkElement "div"]⟩ } _ _
      (by decide) (by rfl)⟩

end Dodrio
